import Mathlib

/-!
Shallow embedding of the object/wire-format translation layer of the
bugzilla-python client library (files `bugzilla/util.py`, `bugzilla/objects.py`,
`bugzilla/__init__.py`, `bugzilla/proxy.py`).

Entities in the source are Python dicts (`BugzillaObject` subclasses `dict` and
routes attribute access through item access), so an entity is modelled as an
association list from string keys to JSON-ish values (`Dict` below).  Operations
that can raise a Python exception (`KeyError`, `TypeError`, `ValueError`,
`binascii.Error`) are modelled as `Option`-valued functions returning `none` in
the raising cases.
-/

/-- Naive-datetime value as produced by `datetime.strptime` with the format
`%Y-%m-%dT%H:%M:%SZ` (second precision, no timezone). -/
structure PyDateTime where
  year : Nat
  month : Nat
  day : Nat
  hour : Nat
  minute : Nat
  second : Nat
deriving DecidableEq

/-- Date value as produced by `datetime.strptime` with the format `%Y-%m-%d`. -/
structure PyDate where
  year : Nat
  month : Nat
  day : Nat
deriving DecidableEq

/-- JSON-ish runtime values manipulated by the library: JSON scalars, lists and
objects, plus the native values the codec introduces (bytes from base64,
datetimes and dates from the parsers) and opaque references such as the lazy
proxy's stored loader object. -/
inductive Value where
  | vnull
  | vbool (b : Bool)
  | vint (n : Int)
  | vstr (s : String)
  | vbytes (bs : List Nat)
  | vdt (d : PyDateTime)
  | vdate (d : PyDate)
  | vref (n : Nat)
  | vlist (xs : List Value)
  | vobj (fields : List (String × Value))

/-- A Python dict with string keys, as an ordered association list.
Lookup finds the first occurrence; real Python dicts never hold duplicates. -/
abbrev Dict := List (String × Value)

/-- Dict lookup (`d[k]`); `none` models a `KeyError`. -/
def dget : Dict → String → Option Value
  | [], _ => none
  | (k, v) :: rest, key => if k = key then some v else dget rest key

/-- Python `key in d`. -/
def hasKey (d : Dict) (k : String) : Bool :=
  (dget d k).isSome

/-- Python `d[k] = v`: replace the binding if the key exists, else append. -/
def dset : Dict → String → Value → Dict
  | [], key, v => [(key, v)]
  | (k, w) :: rest, key, v =>
    if k = key then (k, v) :: rest else (k, w) :: dset rest key v

/-- Python `d.setdefault(k, v)`. -/
def dsetdefault (d : Dict) (k : String) (v : Value) : Dict :=
  if hasKey d k then d else d ++ [(k, v)]

/-- Python `del d[k]` (the key occurs at most once in real dicts). -/
def ddel : Dict → String → Dict
  | [], _ => []
  | (k, w) :: rest, key => if k = key then rest else (k, w) :: ddel rest key

/-- Python `d.update(other)`: assign every binding of `other` into `d`, in order. -/
def dictUpdate (d other : Dict) : Dict :=
  other.foldl (fun acc kv => dset acc kv.1 kv.2) d

/-- `BugzillaObject.set_default_attributes`: `setdefault` every schema binding
into the entity (the source's `deepcopy` has no observable effect in a pure
model). -/
def set_default_attributes (attributes : Dict) (d : Dict) : Dict :=
  attributes.foldl (fun acc kv => dsetdefault acc kv.1 kv.2) d

/-- Entity construction `Kind(attributes)`: take the raw attribute dict and
merge in the kind's declared defaults for all absent keys. -/
def construct (schema : Dict) (d : Dict) : Dict :=
  set_default_attributes schema d

/-- Python truthiness (`bool(v)`) for the modelled values. -/
def pyTruthy : Value → Bool
  | .vnull => false
  | .vbool b => b
  | .vint n => n != 0
  | .vstr s => s != ""
  | .vbytes bs => !bs.isEmpty
  | .vdt _ => true
  | .vdate _ => true
  | .vref _ => true
  | .vlist xs => !xs.isEmpty
  | .vobj fs => !fs.isEmpty

/-- Python `len(v)` (as a value); `none` models the `TypeError` on unsized
values. -/
def pyLenV : Value → Option Value
  | .vstr s => some (.vint s.length)
  | .vbytes bs => some (.vint bs.length)
  | .vlist xs => some (.vint xs.length)
  | .vobj fs => some (.vint fs.length)
  | _ => none

/-! ## Codec primitives (`bugzilla/util.py`) -/

/-- Digit character for a single decimal digit. -/
def dchar : Nat → Char
  | 0 => '0' | 1 => '1' | 2 => '2' | 3 => '3' | 4 => '4'
  | 5 => '5' | 6 => '6' | 7 => '7' | 8 => '8' | _ => '9'

/-- Numeric value of an ASCII digit character. -/
def dval (c : Char) : Nat :=
  c.toNat - 48

/-- ASCII digit test (the digit class used by `strptime`'s field patterns). -/
def isDig (c : Char) : Bool :=
  48 ≤ c.toNat && c.toNat ≤ 57

/-- Zero-padded fixed-width decimal rendering, most significant digit first,
as `strftime` produces for `%Y` (width 4) and `%m`/`%d`/`%H`/`%M`/`%S`
(width 2). -/
def padZ : Nat → Nat → List Char
  | 0, _ => []
  | w + 1, n => dchar (n / 10 ^ w) :: padZ w (n % 10 ^ w)

/-- Consume up to `fuel` leading ASCII digits, folding them into `acc`;
returns the accumulated value, the count of digits consumed and the rest. -/
def takeDigs : Nat → Nat → Nat → List Char → Nat × Nat × List Char
  | 0, acc, cnt, cs => (acc, cnt, cs)
  | _ + 1, acc, cnt, [] => (acc, cnt, [])
  | fuel + 1, acc, cnt, c :: cs =>
    if isDig c then takeDigs fuel (10 * acc + dval c) (cnt + 1) cs
    else (acc, cnt, c :: cs)

/-- Parse a numeric field of exactly `w` digits (the `%Y` pattern of CPython's
`strptime` is exactly four digits). -/
def parseFix (w : Nat) (cs : List Char) : Option (Nat × List Char) :=
  let r := takeDigs w 0 0 cs
  if r.2.1 = w then some (r.1, r.2.2) else none

/-- Parse a numeric field of one or two digits (the `%m`/`%d`/`%H`/`%M`/`%S`
patterns of `strptime` accept one or two digits; range checks happen after). -/
def parseFlex2 (cs : List Char) : Option (Nat × List Char) :=
  let r := takeDigs 2 0 0 cs
  if r.2.1 = 0 then none else some (r.1, r.2.2)

/-- Expect a literal character. -/
def expectC (c : Char) : List Char → Option (List Char)
  | [] => none
  | x :: xs => if x = c then some xs else none

/-- Gregorian leap-year rule (as used by Python's `datetime`). -/
def isLeap (y : Nat) : Bool :=
  y % 4 = 0 && (y % 100 != 0 || y % 400 = 0)

/-- Days in a month of the proleptic Gregorian calendar. -/
def daysInMonth (y m : Nat) : Nat :=
  if m = 2 then (if isLeap y then 29 else 28)
  else if m = 4 || m = 6 || m = 9 || m = 11 then 30
  else 31

/-- Validity of a `PyDateTime`, mirroring the `datetime` constructor's range
checks (`MINYEAR = 1`, `MAXYEAR = 9999`). -/
def validDT (dt : PyDateTime) : Bool :=
  1 ≤ dt.year && dt.year ≤ 9999 && 1 ≤ dt.month && dt.month ≤ 12 &&
  1 ≤ dt.day && dt.day ≤ daysInMonth dt.year dt.month &&
  dt.hour ≤ 23 && dt.minute ≤ 59 && dt.second ≤ 59

/-- Validity of a `PyDate`, mirroring the `date` constructor's range checks. -/
def validDate (d : PyDate) : Bool :=
  1 ≤ d.year && d.year ≤ 9999 && 1 ≤ d.month && d.month ≤ 12 &&
  1 ≤ d.day && d.day ≤ daysInMonth d.year d.month

/-- Character-level body of `parse_bugzilla_datetime`:
`datetime.strptime(string, "%Y-%m-%dT%H:%M:%SZ")`.  `none` models the
`ValueError` raised on a non-matching string or out-of-range fields. -/
def parseDTChars (cs : List Char) : Option PyDateTime := do
  let (y, cs) ← parseFix 4 cs
  let cs ← expectC '-' cs
  let (mo, cs) ← parseFlex2 cs
  let cs ← expectC '-' cs
  let (dy, cs) ← parseFlex2 cs
  let cs ← expectC 'T' cs
  let (h, cs) ← parseFlex2 cs
  let cs ← expectC ':' cs
  let (mi, cs) ← parseFlex2 cs
  let cs ← expectC ':' cs
  let (se, cs) ← parseFlex2 cs
  let cs ← expectC 'Z' cs
  if cs = [] then
    let dt : PyDateTime := ⟨y, mo, dy, h, mi, se⟩
    if validDT dt then some dt else none
  else none

/-- `util.parse_bugzilla_datetime`. -/
def parse_bugzilla_datetime (s : String) : Option PyDateTime :=
  parseDTChars s.data

/-- Character-level body of `parse_bugzilla_date`:
`datetime.strptime(string, "%Y-%m-%d")`. -/
def parseDateChars (cs : List Char) : Option PyDate := do
  let (y, cs) ← parseFix 4 cs
  let cs ← expectC '-' cs
  let (mo, cs) ← parseFlex2 cs
  let cs ← expectC '-' cs
  let (dy, cs) ← parseFlex2 cs
  if cs = [] then
    let d : PyDate := ⟨y, mo, dy⟩
    if validDate d then some d else none
  else none

/-- `util.parse_bugzilla_date`. -/
def parse_bugzilla_date (s : String) : Option PyDate :=
  parseDateChars s.data

/-- Fuel-indexed minimal decimal rendering (most significant digit first, no
leading zeros); enough fuel makes the fuel irrelevant. -/
def decCharsAux : Nat → Nat → List Char
  | 0, _ => []
  | fuel + 1, n =>
    if n < 10 then [dchar n] else decCharsAux fuel (n / 10) ++ [dchar (n % 10)]

/-- Decimal rendering of a number without zero padding, as `strftime("%Y")`
prints the year on the platform the program runs on (CPython delegates `%Y`
to the C library, and glibc does not pad years below 1000:
`datetime(5, 1, 2, 3, 4, 5).strftime("%Y-...")` starts with `5-`, not
`0005-`).  `n + 1` fuel always suffices. -/
def decChars (n : Nat) : List Char :=
  decCharsAux (n + 1) n

/-- Character rendering of `dt.strftime("%Y-%m-%dT%H:%M:%SZ")`: the year
unpadded, the other fields zero-padded to two digits. -/
def encodeDTChars (dt : PyDateTime) : List Char :=
  decChars dt.year ++ '-' :: padZ 2 dt.month ++ '-' :: padZ 2 dt.day ++
  'T' :: padZ 2 dt.hour ++ ':' :: padZ 2 dt.minute ++ ':' :: padZ 2 dt.second ++ ['Z']

/-- `util.encode_bugzilla_datetime` on an actual datetime value. -/
def encode_bugzilla_datetime (dt : PyDateTime) : String :=
  ⟨encodeDTChars dt⟩

/-- Character rendering of `dt.strftime("%Y-%m-%d")` (year unpadded, see
`encodeDTChars`). -/
def encodeDateChars (d : PyDate) : List Char :=
  decChars d.year ++ '-' :: padZ 2 d.month ++ '-' :: padZ 2 d.day

/-- `util.encode_bugzilla_date` on an actual date value. -/
def encode_bugzilla_date (d : PyDate) : String :=
  ⟨encodeDateChars d⟩

/-- `util.encode_bugzilla_datetime` including its `None` short-circuit:
`if dt is None: return None`. -/
def encode_bugzilla_datetimeO : Option PyDateTime → Option String
  | none => none
  | some dt => some (encode_bugzilla_datetime dt)

/-- `util.encode_bugzilla_date` including its `None` short-circuit. -/
def encode_bugzilla_dateO : Option PyDate → Option String
  | none => none
  | some d => some (encode_bugzilla_date d)

/-- The canonical fully padded `YYYY-MM-DDTHH:MM:SSZ` shape. -/
def isFixedDT (s : String) : Bool :=
  match s.data with
  | [y1, y2, y3, y4, a1, m1, m2, a2, d1, d2, a3, h1, h2, a4, i1, i2, a5, e1, e2, a6] =>
    isDig y1 && isDig y2 && isDig y3 && isDig y4 && a1 = '-' &&
    isDig m1 && isDig m2 && a2 = '-' && isDig d1 && isDig d2 && a3 = 'T' &&
    isDig h1 && isDig h2 && a4 = ':' && isDig i1 && isDig i2 && a5 = ':' &&
    isDig e1 && isDig e2 && a6 = 'Z'
  | _ => false

/-- The canonical fully padded `YYYY-MM-DD` shape. -/
def isFixedDate (s : String) : Bool :=
  match s.data with
  | [y1, y2, y3, y4, a1, m1, m2, a2, d1, d2] =>
    isDig y1 && isDig y2 && isDig y3 && isDig y4 && a1 = '-' &&
    isDig m1 && isDig m2 && a2 = '-' && isDig d1 && isDig d2
  | _ => false

/-! For a year of at least 1000 the unpadded `%Y` rendering coincides with
the four-digit zero-padded form, so on four-digit years the encoder emits
exactly the canonical wire shape; below 1000 it emits a shorter year that
`strptime`'s exactly-four-digit `%Y` pattern then refuses to parse. -/

/-- Index of a character in the standard base64 alphabet. -/
def b64Index (c : Char) : Option Nat :=
  if 65 ≤ c.toNat && c.toNat ≤ 90 then some (c.toNat - 65)
  else if 97 ≤ c.toNat && c.toNat ≤ 122 then some (c.toNat - 71)
  else if 48 ≤ c.toNat && c.toNat ≤ 57 then some (c.toNat + 4)
  else if c = '+' then some 62
  else if c = '/' then some 63
  else none

/-- `base64.b64decode` discards characters outside the alphabet (and keeps
`=`) before decoding. -/
def b64Filter (cs : List Char) : List Char :=
  cs.filter (fun c => (b64Index c).isSome || c = '=')

/-- Decode base64 quads into bytes; `none` models `binascii.Error` on
incorrect padding. -/
def b64Quads : List Char → Option (List Nat)
  | [] => some []
  | [a, b, '=', '='] => do
    let x ← b64Index a
    let y ← b64Index b
    some [x * 4 + y / 16]
  | [a, b, c, '='] => do
    let x ← b64Index a
    let y ← b64Index b
    let z ← b64Index c
    some [x * 4 + y / 16, (y % 16) * 16 + z / 4]
  | a :: b :: c :: d :: rest => do
    let x ← b64Index a
    let y ← b64Index b
    let z ← b64Index c
    let w ← b64Index d
    let tail ← b64Quads rest
    some ((x * 4 + y / 16) :: ((y % 16) * 16 + z / 4) :: ((z % 4) * 64 + w) :: tail)
  | _ => none

/-- `base64.b64decode` on a string argument (which is first ASCII-encoded;
non-ASCII input raises). -/
def b64decode (s : String) : Option (List Nat) :=
  if s.data.all (fun c => c.toNat < 128) then b64Quads (b64Filter s.data) else none

/-- Character of a sextet in the standard base64 alphabet. -/
def b64Char (n : Nat) : Char :=
  if n < 26 then Char.ofNat (65 + n)
  else if n < 52 then Char.ofNat (71 + n)
  else if n < 62 then Char.ofNat (n - 4)
  else if n = 62 then '+'
  else '/'

/-- Encode bytes as base64 quads with padding. -/
def b64EncodeChunks : List Nat → List Char
  | [] => []
  | [a] => [b64Char (a / 4), b64Char ((a % 4) * 16), '=', '=']
  | [a, b] => [b64Char (a / 4), b64Char ((a % 4) * 16 + b / 16), b64Char ((b % 16) * 4), '=']
  | a :: b :: c :: rest =>
    b64Char (a / 4) :: b64Char ((a % 4) * 16 + b / 16) ::
    b64Char ((b % 16) * 4 + c / 64) :: b64Char (c % 64) :: b64EncodeChunks rest

/-- `base64.b64encode(...).decode("ascii")`. -/
def b64encode (bs : List Nat) : String :=
  ⟨b64EncodeChunks bs⟩

/-! ## Decode machinery (`Bugzilla._map` and the `_get_*` functions) -/

/-- List broadcasting of `Bugzilla._map`: when the stored value is a list the
conversion is applied to each element, otherwise to the value itself. -/
def bc (g : Value → Option Value) : Value → Option Value
  | .vlist xs => (xs.mapM g).map .vlist
  | v => g v

/-- `Bugzilla._map(dct, key, func)` with the broadcasting folded into `f`
(use `bc g` for a plain element conversion `g`): convert the value stored
under `key` in place, if the key is present. -/
def mapKey (f : Value → Option Value) (key : String) (d : Dict) : Option Dict :=
  match dget d key with
  | none => some d
  | some v => (f v).map (dset d key)

/-- Apply a sequence of keyed conversions in order, as the `_get_*` functions
issue their `_map` calls. -/
def applyConvs : List (String × (Value → Option Value)) → Dict → Option Dict
  | [], d => some d
  | (k, f) :: rest, d => (mapKey f k d).bind (applyConvs rest)

/-- The decode step shared by the `_get_*` functions: run the kind's keyed
conversions over the raw dict, then construct the entity (which merges the
schema defaults for absent keys). -/
def decodeKind (convs : List (String × (Value → Option Value))) (schema : Dict)
    (raw : Dict) : Option Dict :=
  (applyConvs convs raw).map (construct schema)

/-- The conversion a kind declares for a key: the keyed conversion if one is
listed, the identity otherwise. -/
def convOf (convs : List (String × (Value → Option Value))) (k : String) :
    Value → Option Value :=
  match convs.lookup k with
  | some f => f
  | none => fun v => some v

/-- Lift a dict-to-dict decoder to a value conversion; non-object values make
the nested constructor raise. -/
def toConv (g : Dict → Option Dict) : Value → Option Value
  | .vobj d => (g d).map .vobj
  | _ => none

/-- A bare nested constructor (`Change(data)`, `Search(data)`,
`BugFieldValue(data)`): construction over the kind's schema. -/
def ctorConv (schema : Dict) : Value → Option Value :=
  toConv (fun d => some (construct schema d))

/-- `bool` as a conversion (`Bugzilla._map(dct, key, bool)`); total. -/
def boolConv : Value → Option Value :=
  fun v => some (.vbool (pyTruthy v))

/-- `parse_bugzilla_datetime` as a conversion; non-strings raise. -/
def dtConv : Value → Option Value
  | .vstr s => (parse_bugzilla_datetime s).map .vdt
  | _ => none

/-- `b64decode` as a conversion; non-strings raise. -/
def b64Conv : Value → Option Value
  | .vstr s => (b64decode s).map .vbytes
  | _ => none

/-! ## Entity schemas (the `ATTRIBUTES` class constants in
`bugzilla/objects.py`, in source order) -/

namespace Bug

def ATTRIBUTES : Dict := [
  ("alias", .vlist []),
  ("assigned_to_detail", .vnull),
  ("blocks", .vlist []),
  ("cc_detail", .vlist []),
  ("classification", .vstr ""),
  ("component", .vstr ""),
  ("creation_time", .vnull),
  ("creator_detail", .vnull),
  ("deadline", .vnull),
  ("depends_on", .vlist []),
  ("dupe_of", .vnull),
  ("flags", .vlist []),
  ("groups", .vlist []),
  ("id", .vint (-1)),
  ("is_cc_accessible", .vbool false),
  ("is_confirmed", .vbool false),
  ("is_open", .vbool false),
  ("is_creator_accessible", .vbool false),
  ("keywords", .vlist []),
  ("last_change_time", .vnull),
  ("op_sys", .vstr ""),
  ("platform", .vstr ""),
  ("priority", .vstr ""),
  ("product", .vstr ""),
  ("qa_contact_detail", .vnull),
  ("resolution", .vstr ""),
  ("see_also", .vlist []),
  ("severity", .vstr ""),
  ("status", .vstr ""),
  ("summary", .vstr ""),
  ("target_milestone", .vstr ""),
  ("url", .vstr ""),
  ("version", .vstr ""),
  ("whiteboard", .vstr "")]

end Bug

namespace Product

def ATTRIBUTES : Dict := [
  ("id", .vint (-1)),
  ("name", .vstr ""),
  ("description", .vstr ""),
  ("is_active", .vbool false),
  ("default_milestone", .vstr ""),
  ("has_unconfirmed", .vbool false),
  ("classification", .vstr ""),
  ("components", .vlist []),
  ("versions", .vlist []),
  ("milestones", .vlist [])]

end Product

namespace Component

def ATTRIBUTES : Dict := [
  ("id", .vint (-1)),
  ("name", .vstr ""),
  ("description", .vstr ""),
  ("default_assigned_to", .vstr ""),
  ("default_qa_contact", .vstr ""),
  ("sort_key", .vint 0),
  ("is_active", .vbool false),
  ("flag_types", .vobj [("bug", .vlist []), ("attachment", .vlist [])])]

end Component

namespace FlagType

def ATTRIBUTES : Dict := [
  ("id", .vint (-1)),
  ("name", .vstr ""),
  ("description", .vstr ""),
  ("cc_list", .vlist []),
  ("sort_key", .vint 0),
  ("is_active", .vbool true),
  ("is_requestable", .vbool true),
  ("is_requesteeble", .vbool false),
  ("is_multiplicable", .vbool true),
  ("grant_group", .vnull),
  ("request_group", .vnull),
  ("type", .vstr ""),
  ("values", .vlist [])]

end FlagType

namespace Version

def ATTRIBUTES : Dict := [
  ("name", .vstr ""),
  ("sort_key", .vstr ""),
  ("is_active", .vbool false)]

end Version

namespace Milestone

def ATTRIBUTES : Dict := [
  ("name", .vstr ""),
  ("sort_key", .vstr ""),
  ("is_active", .vbool false)]

end Milestone

namespace Classification

def ATTRIBUTES : Dict := [
  ("id", .vint (-1)),
  ("name", .vstr ""),
  ("description", .vstr ""),
  ("sort_key", .vint 0),
  ("products", .vlist [])]

end Classification

namespace Attachment

def ATTRIBUTES : Dict := [
  ("data", .vbytes []),
  ("creation_time", .vnull),
  ("last_change_time", .vnull),
  ("id", .vint (-1)),
  ("bug_id", .vint (-1)),
  ("file_name", .vstr ""),
  ("summary", .vstr ""),
  ("content_type", .vstr ""),
  ("is_private", .vbool false),
  ("is_obsolete", .vbool false),
  ("is_patch", .vbool false),
  ("creator", .vnull),
  ("flags", .vlist [])]

end Attachment

namespace AttachmentFlag

def ATTRIBUTES : Dict := [
  ("id", .vint (-1)),
  ("name", .vstr ""),
  ("type_id", .vint (-1)),
  ("creation_date", .vnull),
  ("modification_date", .vnull),
  ("status", .vstr ""),
  ("setter", .vnull),
  ("requestee", .vnull)]

end AttachmentFlag

namespace History

def ATTRIBUTES : Dict := [
  ("when", .vnull),
  ("who", .vstr ""),
  ("changes", .vlist [])]

end History

namespace Change

def ATTRIBUTES : Dict := [
  ("added", .vstr ""),
  ("removed", .vstr ""),
  ("field_name", .vstr "")]

end Change

namespace UpdateResult

def ATTRIBUTES : Dict := [
  ("changes", .vlist []),
  ("id", .vint (-1)),
  ("last_change_time", .vnull)]

end UpdateResult

namespace Comment

def ATTRIBUTES : Dict := [
  ("id", .vint (-1)),
  ("bug_id", .vint (-1)),
  ("attachment_id", .vnull),
  ("count", .vint (-1)),
  ("text", .vstr ""),
  ("creator", .vstr ""),
  ("time", .vnull),
  ("creation_time", .vnull),
  ("is_private", .vbool false),
  ("is_markdown", .vbool false),
  ("tags", .vlist [])]

end Comment

namespace BugField

def ATTRIBUTES : Dict := [
  ("id", .vint (-1)),
  ("type", .vint 0),
  ("is_custom", .vbool false),
  ("name", .vstr ""),
  ("display_name", .vstr ""),
  ("is_mandatory", .vbool false),
  ("is_on_bug_entry", .vbool false),
  ("visibility_field", .vnull),
  ("visibility_values", .vlist []),
  ("value_field", .vnull),
  ("values", .vlist [])]

end BugField

namespace BugFieldValue

def ATTRIBUTES : Dict := [
  ("name", .vstr ""),
  ("sort_key", .vint 0),
  ("visibility_values", .vlist []),
  ("is_active", .vbool false),
  ("description", .vstr ""),
  ("is_open", .vbool false),
  ("can_change_to", .vlist [])]

end BugFieldValue

namespace User

def ATTRIBUTES : Dict := [
  ("id", .vint (-1)),
  ("real_name", .vstr ""),
  ("email", .vstr ""),
  ("name", .vstr ""),
  ("can_login", .vbool true),
  ("email_enabled", .vbool false),
  ("login_denied_text", .vstr ""),
  ("groups", .vlist []),
  ("saved_searches", .vlist []),
  ("saved_reports", .vlist [])]

end User

namespace Group

def ATTRIBUTES : Dict := [
  ("id", .vint (-1)),
  ("name", .vstr ""),
  ("description", .vstr ""),
  ("is_bug_group", .vbool false),
  ("user_regexp", .vstr ""),
  ("is_active", .vbool false),
  ("membership", .vlist [])]

end Group

namespace Search

def ATTRIBUTES : Dict := [
  ("id", .vint (-1)),
  ("name", .vstr ""),
  ("query", .vstr "")]

end Search

/-! ## Per-kind decoders (`Bugzilla._get_*` in `bugzilla/__init__.py`) -/

/-- Keyed conversions of `Bugzilla._get_attachment_flag`. -/
def afConvs : List (String × (Value → Option Value)) := [
  ("creation_date", bc dtConv),
  ("modification_date", bc dtConv)]

/-- `Bugzilla._get_attachment_flag`. -/
def _get_attachment_flag (d : Dict) : Option Dict :=
  decodeKind afConvs AttachmentFlag.ATTRIBUTES d

/-- Keyed conversions of `Bugzilla._get_attachment`. -/
def attachmentConvs : List (String × (Value → Option Value)) := [
  ("creation_time", bc dtConv),
  ("last_change_time", bc dtConv),
  ("data", bc b64Conv),
  ("is_private", bc boolConv),
  ("is_obsolete", bc boolConv),
  ("is_patch", bc boolConv),
  ("flags", bc (toConv _get_attachment_flag))]

/-- `Bugzilla._get_attachment`: run the conversions, discard a wire `size`
key if present (`if "size" in data: del data["size"]`), construct. -/
def _get_attachment (raw : Dict) : Option Dict :=
  (applyConvs attachmentConvs raw).map
    (fun d => construct Attachment.ATTRIBUTES (ddel d "size"))

/-- Keyed conversions of `Bugzilla._get_bug` (bug flags are decoded with
`_get_attachment_flag` in the source). -/
def bugConvs : List (String × (Value → Option Value)) := [
  ("creation_time", bc dtConv),
  ("flags", bc (toConv _get_attachment_flag)),
  ("is_cc_accessible", bc boolConv),
  ("is_confirmed", bc boolConv),
  ("is_open", bc boolConv),
  ("is_creator_accessible", bc boolConv),
  ("last_change_time", bc dtConv)]

/-- `Bugzilla._get_bug`. -/
def _get_bug (raw : Dict) : Option Dict :=
  decodeKind bugConvs Bug.ATTRIBUTES raw

/-- Keyed conversions of `Bugzilla._get_history` (`changes` elements go
through the bare `Change` constructor). -/
def historyConvs : List (String × (Value → Option Value)) := [
  ("when", bc dtConv),
  ("changes", bc (ctorConv Change.ATTRIBUTES))]

/-- `Bugzilla._get_history`. -/
def _get_history (raw : Dict) : Option Dict :=
  decodeKind historyConvs History.ATTRIBUTES raw

/-- `Bugzilla._get_flag_type` (construction only). -/
def _get_flag_type (raw : Dict) : Option Dict :=
  decodeKind [] FlagType.ATTRIBUTES raw

/-- The in-place fixup `_get_component` performs on a present `flag_types`
value: `_map` the `bug` and `attachment` keys of the sub-dict through
`_get_flag_type`.  On non-dict values the Python `in` test either is false
(no-op on lists/strings without the keys) or raises. -/
def flagTypesFix : Value → Option Value
  | .vobj sub =>
    (applyConvs [("bug", bc (toConv _get_flag_type)),
                 ("attachment", bc (toConv _get_flag_type))] sub).map .vobj
  | .vlist xs =>
    if xs.any (fun v => v matches .vstr "bug") ||
       xs.any (fun v => v matches .vstr "attachment") then none
    else some (.vlist xs)
  | _ => none

/-- Keyed conversions of `Bugzilla._get_component` (the fixup is applied to
the `flag_types` value itself, without list broadcasting). -/
def componentConvs : List (String × (Value → Option Value)) := [
  ("flag_types", flagTypesFix)]

/-- `Bugzilla._get_component`. -/
def _get_component (raw : Dict) : Option Dict :=
  decodeKind componentConvs Component.ATTRIBUTES raw

/-- `Bugzilla._get_version` (construction only). -/
def _get_version (raw : Dict) : Option Dict :=
  decodeKind [] Version.ATTRIBUTES raw

/-- `Bugzilla._get_milestone` (construction only). -/
def _get_milestone (raw : Dict) : Option Dict :=
  decodeKind [] Milestone.ATTRIBUTES raw

/-- `Bugzilla._get_classification` (construction only). -/
def _get_classification (raw : Dict) : Option Dict :=
  decodeKind [] Classification.ATTRIBUTES raw

/-- Keyed conversions of `Bugzilla._get_product`. -/
def productConvs : List (String × (Value → Option Value)) := [
  ("components", bc (toConv _get_component)),
  ("versions", bc (toConv _get_version)),
  ("milestones", bc (toConv _get_milestone))]

/-- `Bugzilla._get_product`. -/
def _get_product (raw : Dict) : Option Dict :=
  decodeKind productConvs Product.ATTRIBUTES raw

/-- Keyed conversions of `Bugzilla._get_update_result`. -/
def updateResultConvs : List (String × (Value → Option Value)) := [
  ("last_change_time", bc dtConv)]

/-- `Bugzilla._get_update_result`. -/
def _get_update_result (raw : Dict) : Option Dict :=
  decodeKind updateResultConvs UpdateResult.ATTRIBUTES raw

/-- Keyed conversions of `Bugzilla._get_comment`. -/
def commentConvs : List (String × (Value → Option Value)) := [
  ("time", bc dtConv),
  ("creation_time", bc dtConv)]

/-- `Bugzilla._get_comment`. -/
def _get_comment (raw : Dict) : Option Dict :=
  decodeKind commentConvs Comment.ATTRIBUTES raw

/-- Keyed conversions of `Bugzilla._get_field` (`values` elements go through
the bare `BugFieldValue` constructor). -/
def fieldConvs : List (String × (Value → Option Value)) := [
  ("values", bc (ctorConv BugFieldValue.ATTRIBUTES))]

/-- `Bugzilla._get_field`. -/
def _get_field (raw : Dict) : Option Dict :=
  decodeKind fieldConvs BugField.ATTRIBUTES raw

mutual

/-- `Bugzilla._get_user`, fuel-indexed because `_get_user` and `_get_group`
are mutually recursive through the `groups` and `membership` fields (any fuel
at least the nesting depth computes the same result). -/
def _get_userF : Nat → Dict → Option Dict
  | 0, _ => none
  | n + 1, raw =>
    decodeKind [("groups", bc (toConv (_get_groupF n))),
                ("saved_searches", bc (ctorConv Search.ATTRIBUTES)),
                ("saved_reports", bc (ctorConv Search.ATTRIBUTES))]
      User.ATTRIBUTES raw

/-- `Bugzilla._get_group`, fuel-indexed (see `_get_userF`). -/
def _get_groupF : Nat → Dict → Option Dict
  | 0, _ => none
  | n + 1, raw =>
    decodeKind [("membership", bc (toConv (_get_userF n)))]
      Group.ATTRIBUTES raw

end

/-- The keyed conversions of `Bugzilla._get_user` at a given fuel. -/
def userConvs (n : Nat) : List (String × (Value → Option Value)) := [
  ("groups", bc (toConv (_get_groupF n))),
  ("saved_searches", bc (ctorConv Search.ATTRIBUTES)),
  ("saved_reports", bc (ctorConv Search.ATTRIBUTES))]

/-- The keyed conversions of `Bugzilla._get_group` at a given fuel. -/
def groupConvs (n : Nat) : List (String × (Value → Option Value)) := [
  ("membership", bc (toConv (_get_userF n)))]

/-! ## Entity methods (`bugzilla/objects.py`) -/

/-- The name extraction for one entry of the `cc` virtual field of a bug. -/
def ccName : Value → Option Value
  | .vnull => some .vnull
  | .vobj dd => dget dd "name"
  | _ => none

/-- `Bug.__getitem__`: the virtual fields `assigned_to`, `cc`, `creator` and
`qa_contact` are derived from the corresponding `*_detail` fields; everything
else is a plain dict lookup.  `none` models the raised `KeyError`/`TypeError`
on missing or unsubscriptable values. -/
def Bug.getitem (b : Dict) (attr : String) : Option Value :=
  if attr = "assigned_to" then
    match dget b "assigned_to_detail" with
    | some .vnull => some .vnull
    | some (.vobj dd) => dget dd "name"
    | _ => none
  else if attr = "cc" then
    match dget b "cc_detail" with
    | some (.vlist xs) => (xs.mapM ccName).map .vlist
    | _ => none
  else if attr = "creator" then
    match dget b "creator_detail" with
    | some .vnull => some .vnull
    | some (.vobj dd) => dget dd "name"
    | _ => none
  else if attr = "qa_contact" then
    match dget b "qa_contact_detail" with
    | some .vnull => some .vnull
    | some (.vobj dd) => dget dd "name"
    | _ => none
  else dget b attr

/-- `key.startswith(Bug.CUSTOM_FIELD_PREFIX)`: the custom-field name test,
on the character level. -/
def startsWithCf (k : String) : Bool :=
  "cf_".data.isPrefixOf k.data

/-- `Bug.get_custom_fields`: collect the fields whose name starts with the
custom-field name marker `cf_`. -/
def Bug.get_custom_fields (b : Dict) : Dict :=
  b.filter (fun kv => startsWithCf kv.1)

/-- The field tuple iterated by `Bug.add_json`. -/
def Bug.addFields : List String :=
  ["product", "component", "summary", "version", "op_sys",
   "platform", "priority", "severity", "alias", "assigned_to", "cc", "groups",
   "keywords", "qa_contact", "status", "resolution", "target_milestone"]

/-- The loop of `Bug.add_json`: read each field through `__getitem__` and
copy it into the outgoing dict only when truthy. -/
def addFieldsLoop (getf : String → Option Value) : List String → Dict → Option Dict
  | [], dct => some dct
  | f :: rest, dct =>
    match getf f with
    | none => none
    | some v => addFieldsLoop getf rest (if pyTruthy v then dset dct f v else dct)

/-- `[flag.to_json() for flag in self.flags]` in `Bug.add_json`.  In this
version of the source no class in the hierarchy defines `to_json`, so
`flag.to_json` resolves through `__getattr__` to a dict lookup and raises
`KeyError` for every flag; only the empty flag list survives (non-list values
fail on iteration or attribute access). -/
def bugFlagsToJson : Value → Option Value
  | .vlist [] => some (.vlist [])
  | _ => none

/-- `Bug.add_json`. -/
def Bug.add_json (b : Dict) : Option Dict := do
  let dct ← addFieldsLoop (Bug.getitem b) Bug.addFields []
  let fv ← Bug.getitem b "flags"
  let fl ← bugFlagsToJson fv
  let dct := dset dct "flags" fl
  some (dictUpdate dct (Bug.get_custom_fields b))

/-- `Bug.can_be_added`:
`bool(self.product and self.component and self.summary and self.version)`,
with Python's short-circuit evaluation of `and`. -/
def Bug.can_be_added (b : Dict) : Option Bool := do
  let p ← Bug.getitem b "product"
  if !pyTruthy p then return false
  let c ← Bug.getitem b "component"
  if !pyTruthy c then return false
  let s ← Bug.getitem b "summary"
  if !pyTruthy s then return false
  let v ← Bug.getitem b "version"
  return pyTruthy v

/-- The field tuple iterated by `Bug.update_json`. -/
def Bug.updateFields : List String :=
  ["assigned_to", "is_cc_accessible", "op_sys", "platform", "priority",
   "qa_contact", "is_creator_accessible", "resolution", "severity", "status",
   "summary", "url", "version", "whiteboard"]

/-- The unconditional projection loop shared by the `update_json` methods:
`dct[field] = self[field]` for every listed field. -/
def updFieldsLoop (getf : String → Option Value) : List String → Dict → Option Dict
  | [], dct => some dct
  | f :: rest, dct => (getf f).bind (fun v => updFieldsLoop getf rest (dset dct f v))

/-- `encode_bugzilla_date(self.deadline)` inside `Bug.update_json`; `None`
passes through, a date (or datetime) is formatted, anything else makes
`strftime` raise. -/
def encodeDeadline : Value → Option Value
  | .vnull => some .vnull
  | .vdate d => some (.vstr (encode_bugzilla_date d))
  | .vdt dt => some (.vstr (encode_bugzilla_date ⟨dt.year, dt.month, dt.day⟩))
  | _ => none

/-- `Bug.update_json`. -/
def Bug.update_json (b : Dict) : Option Dict := do
  let dct ← updFieldsLoop (Bug.getitem b) Bug.updateFields []
  let dl ← Bug.getitem b "deadline"
  let enc ← encodeDeadline dl
  some (dictUpdate (dset dct "deadline" enc) (Bug.get_custom_fields b))

/-- `Bug.can_be_updated`: `self.id != -1`. -/
def Bug.can_be_updated (b : Dict) : Option Bool := do
  let i ← Bug.getitem b "id"
  return !(i matches .vint (-1))

/-- `Attachment.__getitem__`: `size` is virtual (`len(self.data)`), the rest
is a plain dict lookup. -/
def Attachment.getitem (a : Dict) (attr : String) : Option Value :=
  if attr = "size" then (dget a "data").bind pyLenV
  else dget a attr

/-- `Attachment.__setitem__`: assigning `size` raises `AttributeError`
(leaving the attachment untouched); other keys are plain dict assignment. -/
def Attachment.setitem (a : Dict) (attr : String) (v : Value) : Option Dict :=
  if attr = "size" then none
  else some (dset a attr v)

/-- One element of the flag projection shared by `Attachment.add_json` and
`Attachment.update_json`: a dict of `name`/`type_id`/`status`, plus
`requestee` when truthy. -/
def attachmentFlagOut : Value → Option Value
  | .vobj fd => do
    let nm ← dget fd "name"
    let ti ← dget fd "type_id"
    let st ← dget fd "status"
    let base := dset (dset (dset [] "name" nm) "type_id" ti) "status" st
    let rq ← dget fd "requestee"
    some (.vobj (if pyTruthy rq then dset base "requestee" rq else base))
  | _ => none

/-- The flags list projection of the attachment encoders. -/
def attachmentFlagsOut : Value → Option Value
  | .vlist xs => (xs.mapM attachmentFlagOut).map .vlist
  | _ => none

/-- `Attachment.add_json`. -/
def Attachment.add_json (a : Dict) : Option Dict := do
  let dct ← updFieldsLoop (Attachment.getitem a)
    ["is_patch", "summary", "content_type", "file_name", "is_private"] []
  let dv ← Attachment.getitem a "data"
  let enc ← match dv with
    | .vbytes bs => some (.vstr (b64encode bs))
    | _ => none
  let dct := dset dct "data" enc
  let fv ← Attachment.getitem a "flags"
  let fl ← attachmentFlagsOut fv
  some (dset dct "flags" fl)

/-- `Attachment.can_be_added`:
`bool(self.file_name and self.summary and self.content_type)`. -/
def Attachment.can_be_added (a : Dict) : Option Bool := do
  let f ← Attachment.getitem a "file_name"
  if !pyTruthy f then return false
  let s ← Attachment.getitem a "summary"
  if !pyTruthy s then return false
  let c ← Attachment.getitem a "content_type"
  return pyTruthy c

/-- `Attachment.update_json`. -/
def Attachment.update_json (a : Dict) : Option Dict := do
  let dct ← updFieldsLoop (Attachment.getitem a)
    ["file_name", "summary", "content_type", "is_patch", "is_private", "is_obsolete"] []
  let fv ← Attachment.getitem a "flags"
  let fl ← attachmentFlagsOut fv
  some (dset dct "flags" fl)

/-- `Product.update_json`. -/
def Product.update_json (p : Dict) : Option Dict :=
  updFieldsLoop (dget p) ["name", "default_milestone", "description", "has_unconfirmed"] []

/-- `Component.update_json` (note the key rename to `default_assignee`). -/
def Component.update_json (c : Dict) : Option Dict := do
  let dct ← updFieldsLoop (dget c) ["name", "description", "default_qa_contact"] []
  let da ← dget c "default_assigned_to"
  some (dset dct "default_assignee" da)

/-- `FlagType.add_json`: six unconditional fields, `grant_group` and
`request_group` only when truthy, and `sort_key` under the renamed key
`sortkey` only when truthy. -/
def FlagType.add_json (ft : Dict) : Option Dict := do
  let dct ← updFieldsLoop (dget ft)
    ["name", "description", "is_active", "is_requestable", "cc_list", "is_multiplicable"] []
  let gg ← dget ft "grant_group"
  let dct := if pyTruthy gg then dset dct "grant_group" gg else dct
  let rg ← dget ft "request_group"
  let dct := if pyTruthy rg then dset dct "request_group" rg else dct
  let sk ← dget ft "sort_key"
  some (if pyTruthy sk then dset dct "sortkey" sk else dct)

/-- `FlagType.update_json`: `return self.add_json()`. -/
def FlagType.update_json (ft : Dict) : Option Dict :=
  FlagType.add_json ft

/-- `User.add_json`. -/
def User.add_json (u : Dict) : Option Dict := do
  let e ← dget u "email"
  let rn ← dget u "real_name"
  some (dset (dset [] "email" e) "full_name" rn)

/-- `User.can_be_added`: `bool(self.email)`. -/
def User.can_be_added (u : Dict) : Option Bool := do
  let e ← dget u "email"
  return pyTruthy e

/-- `User.update_json` (note the `full_name` rename of `real_name`). -/
def User.update_json (u : Dict) : Option Dict := do
  let dct ← updFieldsLoop (dget u) ["email", "email_enabled", "login_denied_text"] []
  let rn ← dget u "real_name"
  some (dset dct "full_name" rn)

/-- `Group.add_json`. -/
def Group.add_json (g : Dict) : Option Dict :=
  updFieldsLoop (dget g) ["name", "description", "user_regexp", "is_active"] []

/-- `Group.can_be_added`: `bool(self.name and self.description)`. -/
def Group.can_be_added (g : Dict) : Option Bool := do
  let n ← dget g "name"
  if !pyTruthy n then return false
  let d ← dget g "description"
  return pyTruthy d

/-- `Group.update_json` (same projection as `Group.add_json`). -/
def Group.update_json (g : Dict) : Option Dict :=
  updFieldsLoop (dget g) ["name", "description", "user_regexp", "is_active"] []

/-- `Comment.add_json`: `is_private`/`is_markdown` unconditionally, the text
under the renamed key `comment`, and `comment_tags` only when `tags` is
truthy. -/
def Comment.add_json (c : Dict) : Option Dict := do
  let dct ← updFieldsLoop (dget c) ["is_private", "is_markdown"] []
  let tx ← dget c "text"
  let dct := dset dct "comment" tx
  let tg ← dget c "tags"
  some (if pyTruthy tg then dset dct "comment_tags" tg else dct)

/-- `Comment.can_be_added`: `bool(self.text)`. -/
def Comment.can_be_added (c : Dict) : Option Bool := do
  let t ← dget c "text"
  return pyTruthy t

/-- `Component.add_json` (the loop's `if field:` tests the field-name string,
which is always truthy, so every listed field is copied; note the
`default_assignee` rename). -/
def Component.add_json (c : Dict) : Option Dict := do
  let dct ← updFieldsLoop (dget c) ["name", "description", "default_qa_contact"] []
  let da ← dget c "default_assigned_to"
  some (dset dct "default_assignee" da)

/-- `Component.can_be_added`:
`bool(self.name and self.description and self.default_assigned_to)`. -/
def Component.can_be_added (c : Dict) : Option Bool := do
  let n ← dget c "name"
  if !pyTruthy n then return false
  let d ← dget c "description"
  if !pyTruthy d then return false
  let a ← dget c "default_assigned_to"
  return pyTruthy a

/-- `Component.can_be_updated`: `self.id != -1`. -/
def Component.can_be_updated (c : Dict) : Option Bool := do
  let i ← dget c "id"
  return !(i matches .vint (-1))

/-- `Product.add_json` (note that `version` is not in `Product.ATTRIBUTES`,
so a product that was never given one raises `KeyError` here). -/
def Product.add_json (p : Dict) : Option Dict :=
  updFieldsLoop (dget p)
    ["name", "description", "version", "has_unconfirmed", "classification",
     "default_milestone"] []

/-- `Product.can_be_added`:
`bool(self.name and self.description and self.version)`. -/
def Product.can_be_added (p : Dict) : Option Bool := do
  let n ← dget p "name"
  if !pyTruthy n then return false
  let d ← dget p "description"
  if !pyTruthy d then return false
  let v ← dget p "version"
  return pyTruthy v

/-- `Product.can_be_updated`: `self.id != -1`. -/
def Product.can_be_updated (p : Dict) : Option Bool := do
  let i ← dget p "id"
  return !(i matches .vint (-1))

/-- `FlagType.can_be_added`: `bool(self.name and self.description)`. -/
def FlagType.can_be_added (ft : Dict) : Option Bool := do
  let n ← dget ft "name"
  if !pyTruthy n then return false
  let d ← dget ft "description"
  return pyTruthy d

/-- `FlagType.can_be_updated`: `self.id != -1`. -/
def FlagType.can_be_updated (ft : Dict) : Option Bool := do
  let i ← dget ft "id"
  return !(i matches .vint (-1))

/-- `Attachment.can_be_updated`: `self.id != -1` (read through
`__getitem__`, `id` is not a virtual field). -/
def Attachment.can_be_updated (a : Dict) : Option Bool := do
  let i ← Attachment.getitem a "id"
  return !(i matches .vint (-1))

/-- `User.can_be_updated`: `self.id != -1`. -/
def User.can_be_updated (u : Dict) : Option Bool := do
  let i ← dget u "id"
  return !(i matches .vint (-1))

/-- `Group.can_be_updated`: `self.id != -1`. -/
def Group.can_be_updated (g : Dict) : Option Bool := do
  let i ← dget g "id"
  return !(i matches .vint (-1))

/-! ## Create/update endpoint operations (`bugzilla/__init__.py`),
modelled up to the point where the request payload is handed to the
transport: the result is `some (.error ...)` when the precondition gate
raises `BugzillaException` before any network interaction, `some (.ok
payload)` when a request body is produced, and `none` when building the
payload itself raises. -/

/-- A raised `BugzillaException(code, message)`. -/
structure BzError where
  code : Int
  message : String
deriving DecidableEq

/-- `Bugzilla.add_bug` (without the extra keyword parameters): the
precondition gate and the request payload that would be posted to `bug`. -/
def Bugzilla.add_bug (b : Dict) : Option (Except BzError Dict) :=
  match Bug.can_be_added b with
  | none => none
  | some false => some (.error ⟨-1, "This bug does not have the required fields set"⟩)
  | some true => (Bug.add_json b).map .ok

/-- The request bodies `Bugzilla.add_bug` hands to the transport. -/
def Bugzilla.add_bug_requests (b : Dict) : List Dict :=
  match Bugzilla.add_bug b with
  | some (.ok d) => [d]
  | _ => []

/-- `Bugzilla.add_attachment`: the precondition gate, then the payload
extended with the target bug ids and the comment. -/
def Bugzilla.add_attachment (a : Dict) (ids : List Int) (comment : String) :
    Option (Except BzError Dict) :=
  match Attachment.can_be_added a with
  | none => none
  | some false =>
    some (.error ⟨-1, "This attachment does not have the required fields set"⟩)
  | some true =>
    (Attachment.add_json a).map (fun d =>
      .ok (dset (dset d "ids" (.vlist (ids.map .vint))) "comment" (.vstr comment)))

/-- The request bodies `Bugzilla.add_attachment` hands to the transport. -/
def Bugzilla.add_attachment_requests (a : Dict) (ids : List Int) (comment : String) :
    List Dict :=
  match Bugzilla.add_attachment a ids comment with
  | some (.ok d) => [d]
  | _ => []

/-- `Bugzilla.add_user`. -/
def Bugzilla.add_user (u : Dict) : Option (Except BzError Dict) :=
  match User.can_be_added u with
  | none => none
  | some false => some (.error ⟨-1, "This user does not have the required fields set"⟩)
  | some true => (User.add_json u).map .ok

/-- The request bodies `Bugzilla.add_user` hands to the transport. -/
def Bugzilla.add_user_requests (u : Dict) : List Dict :=
  match Bugzilla.add_user u with
  | some (.ok d) => [d]
  | _ => []

/-- `Bugzilla.update_bug` (without the keyword and add/remove/set
parameters): the gate `if not bug.can_be_updated()` fires before
`update_json` is computed and before any network interaction; on success the
payload is the update projection extended with the target ids. -/
def Bugzilla.update_bug (b : Dict) (ids : List Int) : Option (Except BzError Dict) :=
  match Bug.can_be_updated b with
  | none => none
  | some false => some (.error ⟨-1, "This bug does not have the required fields set"⟩)
  | some true =>
    (Bug.update_json b).map (fun d => .ok (dset d "ids" (.vlist (ids.map .vint))))

/-- The request bodies `Bugzilla.update_bug` hands to the transport. -/
def Bugzilla.update_bug_requests (b : Dict) (ids : List Int) : List Dict :=
  match Bugzilla.update_bug b ids with
  | some (.ok d) => [d]
  | _ => []

/-- The request bodies a modelled endpoint result hands to the transport. -/
def requestsOf : Option (Except BzError Dict) → List Dict
  | some (.ok d) => [d]
  | _ => []

/-- `Bugzilla.add_comment` (without the keyword parameters and the bug id,
which only select the URL). -/
def Bugzilla.add_comment (c : Dict) : Option (Except BzError Dict) :=
  match Comment.can_be_added c with
  | none => none
  | some false => some (.error ⟨-1, "This comment does not have the required fields set"⟩)
  | some true => (Comment.add_json c).map .ok

/-- `Bugzilla.add_component`: the gate, then the payload extended with the
product name. -/
def Bugzilla.add_component (c : Dict) (product : String) :
    Option (Except BzError Dict) :=
  match Component.can_be_added c with
  | none => none
  | some false => some (.error ⟨-1, "This component does not have the required fields set"⟩)
  | some true =>
    (Component.add_json c).map (fun d => .ok (dset d "product" (.vstr product)))

/-- `Bugzilla.update_component` (`product = None` branch): the payload is
built and handed to `_put` WITHOUT any `can_be_updated` gate. -/
def Bugzilla.update_component (c : Dict) : Option (Except BzError Dict) := do
  let d ← Component.update_json c
  let i ← dget c "id"
  some (.ok (dset d "ids" i))

/-- `Bugzilla.add_group`. -/
def Bugzilla.add_group (g : Dict) : Option (Except BzError Dict) :=
  match Group.can_be_added g with
  | none => none
  | some false => some (.error ⟨-1, "This group does not have the required fields set"⟩)
  | some true => (Group.add_json g).map .ok

/-- `Bugzilla.update_group`. -/
def Bugzilla.update_group (g : Dict) (ids : List Int) : Option (Except BzError Dict) :=
  match Group.can_be_updated g with
  | none => none
  | some false => some (.error ⟨-1, "This group does not have the required fields set"⟩)
  | some true =>
    (Group.update_json g).map (fun d => .ok (dset d "ids" (.vlist (ids.map .vint))))

/-- `Bugzilla.update_user`. -/
def Bugzilla.update_user (u : Dict) (ids : List Int) : Option (Except BzError Dict) :=
  match User.can_be_updated u with
  | none => none
  | some false => some (.error ⟨-1, "This user does not have the required fields set"⟩)
  | some true =>
    (User.update_json u).map (fun d => .ok (dset d "ids" (.vlist (ids.map .vint))))

/-- `Bugzilla.add_product`. -/
def Bugzilla.add_product (p : Dict) : Option (Except BzError Dict) :=
  match Product.can_be_added p with
  | none => none
  | some false => some (.error ⟨-1, "This product does not have the required fields set"⟩)
  | some true => (Product.add_json p).map .ok

/-- `Bugzilla.update_product`. -/
def Bugzilla.update_product (p : Dict) (ids : List Int) : Option (Except BzError Dict) :=
  match Product.can_be_updated p with
  | none => none
  | some false => some (.error ⟨-1, "This product does not have the required fields set"⟩)
  | some true =>
    (Product.update_json p).map (fun d => .ok (dset d "ids" (.vlist (ids.map .vint))))

/-- `Bugzilla.add_flag_type`: the gate (whose message names `FlagType`), then
the payload extended with the target type. -/
def Bugzilla.add_flag_type (ft : Dict) (targetType : String) :
    Option (Except BzError Dict) :=
  match FlagType.can_be_added ft with
  | none => none
  | some false => some (.error ⟨-1, "This FlagType does not have the required fields set"⟩)
  | some true =>
    (FlagType.add_json ft).map (fun d => .ok (dset d "target_type" (.vstr targetType)))

/-- `Bugzilla.update_flag_type`: the gate fires before any request, but its
message reads `This product does not have the required fields set`, naming
the wrong kind. -/
def Bugzilla.update_flag_type (ft : Dict) (ids : List Int) :
    Option (Except BzError Dict) :=
  match FlagType.can_be_updated ft with
  | none => none
  | some false => some (.error ⟨-1, "This product does not have the required fields set"⟩)
  | some true =>
    (FlagType.update_json ft).map (fun d => .ok (dset d "ids" (.vlist (ids.map .vint))))

/-- `Bugzilla.update_attachment`: same gate and message as `add_attachment`,
then the update projection extended with the ids and the comment. -/
def Bugzilla.update_attachment (a : Dict) (ids : List Int) (comment : String) :
    Option (Except BzError Dict) :=
  match Attachment.can_be_updated a with
  | none => none
  | some false =>
    some (.error ⟨-1, "This attachment does not have the required fields set"⟩)
  | some true =>
    (Attachment.update_json a).map (fun d =>
      .ok (dset (dset d "ids" (.vlist (ids.map .vint))) "comment" (.vstr comment)))

/-- Substring test used to state what the error messages do (not) mention. -/
def containsSub (pat s : List Char) : Bool :=
  match s with
  | [] => pat.isEmpty
  | _ :: rest => pat.isPrefixOf s || containsSub pat rest

/-! ## Lazy proxy (`bugzilla/proxy.py`) -/

/-- The object state of a (possibly former) `LazyBugzillaObject`: before the
load it is a lazy object whose dict carries the seed attributes plus the
bookkeeping entries; after the successful load the object has re-classed
itself to the real entity class. -/
inductive PState where
  | unloaded (d : Dict)
  | loaded (cls : String) (d : Dict)

/-- The loader collaborator: the result of its `n`-th invocation, `none`
when that invocation raises, otherwise the class name and dict of the
fetched object. -/
structure Loader where
  results : Nat → Option (String × Dict)

/-- `LazyBugzillaObject.__init__(loader, real_class, attributes)`: dict
construction from the seed attributes, then the three attribute assignments
(which land in the dict, since `__setattr__` routes to `__setitem__`). -/
def LazyBugzillaObject.init (seed : Dict) (cls : String) : Dict :=
  dset (dset (dset seed "loader" (.vref 0)) "real_class" (.vstr cls))
    "load_on_missing_key" (.vbool true)

/-- `LazyBugzillaObject.load` at loader-invocation count `n`: fetch, check
the kind (`isinstance(obj, self.real_class)`), then `self.update(obj)`,
re-class, and `_clean` (delete `loader`, `real_class`,
`load_on_missing_key`).  Both failure branches raise before any mutation. -/
def LazyBugzillaObject.load (L : Loader) (n : Nat) (d : Dict) :
    Nat × Except Unit (String × Dict) :=
  match L.results n with
  | none => (n + 1, .error ())
  | some (c, od) =>
    (n + 1,
      match dget d "real_class" with
      | some (.vstr rc) =>
        if c = rc then
          .ok (c, ddel (ddel (ddel (dictUpdate d od) "loader") "real_class")
            "load_on_missing_key")
        else .error ()
      | _ => .error ())

/-- `LazyBugzillaObject.__getitem__` (with the default `triggers_loading`,
which returns `True`): a missing key with loading enabled triggers the load
and the access is then re-issued against the re-classed object; a plain
lookup otherwise.  The `Nat` component counts loader invocations. -/
def LazyBugzillaObject.getitem (L : Loader) :
    PState × Nat → String → (PState × Nat) × Except Unit Value
  | (.loaded c d, n), key =>
    ((.loaded c d, n),
      match dget d key with
      | some v => .ok v
      | none => .error ())
  | (.unloaded d, n), key =>
    match dget d key with
    | some v => ((.unloaded d, n), .ok v)
    | none =>
      match dget d "load_on_missing_key" with
      | none => ((.unloaded d, n), .error ())
      | some flg =>
        if pyTruthy flg then
          match LazyBugzillaObject.load L n d with
          | (n2, .error _) => ((.unloaded d, n2), .error ())
          | (n2, .ok (c, nd)) =>
            ((.loaded c nd, n2),
              match dget nd key with
              | some v => .ok v
              | none => .error ())
        else ((.unloaded d, n), .error ())

/-- A sequence of field reads on the (possibly lazy) object, returning the
final state and invocation count. -/
def runReads (L : Loader) : PState × Nat → List String → PState × Nat
  | st, [] => st
  | st, k :: ks => runReads L ((LazyBugzillaObject.getitem L st k).1) ks

/-- Key distinctness of a keyed-conversion table. -/
def nodupKeysP {α : Type} : List (String × α) → Bool
  | [] => true
  | (k, _) :: rest => !(rest.any (fun kv => kv.1 == k)) && nodupKeysP rest

/-- The decode contract claim C1 states, for one kind given by a conversion
table and a schema: absent raw fields come out as the schema default, present
raw fields come out as the declared conversion of the raw value (so no
conversion touches an absent field). -/
def decodeFieldContract (convs : List (String × (Value → Option Value)))
    (schema : Dict) (decode : Dict → Option Dict) : Prop :=
  ∀ (raw e : Dict) (k : String) (dv : Value), decode raw = some e →
    dget schema k = some dv →
    (hasKey raw k = false → dget e k = some dv) ∧
    (∀ v : Value, dget raw k = some v → dget e k = convOf convs k v)

/-- The key list of a dict. -/
def keysOf (d : Dict) : List String :=
  d.map Prod.fst

/-- Distinctness of a plain key list. -/
def nodupStr : List String → Bool
  | [] => true
  | k :: rest => !(rest.contains k) && nodupStr rest

/-- The dict a successful `LazyBugzillaObject.load` leaves behind:
`self.update(obj)` over the constructed proxy dict followed by `_clean`'s
three deletions. -/
def proxyMerged (seed : Dict) (cls : String) (od : Dict) : Dict :=
  ddel (ddel (ddel (dictUpdate (LazyBugzillaObject.init seed cls) od) "loader")
    "real_class") "load_on_missing_key"

/-! ## Dict lemmas -/

/-- Left-biased choice on optional values (Python lookup-with-fallback). -/
def oOr : Option Value → Option Value → Option Value
  | some v, _ => some v
  | none, o => o

theorem oOr_none_right (o : Option Value) : oOr o none = o := by
  cases o <;> rfl

theorem dget_dset_self (d : Dict) (k : String) (v : Value) :
    dget (dset d k v) k = some v := by
  induction d with
  | nil => simp [dset, dget]
  | cons kv rest ih =>
    by_cases h : kv.1 = k
    · simp [dset, dget, h]
    · cases kv with
      | mk k0 w => simp_all [dset, dget]

theorem dget_dset_ne (d : Dict) (k k' : String) (v : Value) (h : k' ≠ k) :
    dget (dset d k v) k' = dget d k' := by
  have hne : ¬(k = k') := fun hh => h hh.symm
  induction d with
  | nil => simp [dset, dget, hne]
  | cons kv rest ih =>
    cases kv with
    | mk k0 w =>
      by_cases h0 : k0 = k
      · subst h0
        simp [dset, dget, hne]
      · simp [dset, dget, h0, ih]

theorem dget_append (a b : Dict) (k : String) :
    dget (a ++ b) k = oOr (dget a k) (dget b k) := by
  induction a with
  | nil => simp [dget, oOr]
  | cons kv rest ih =>
    cases kv with
    | mk k0 w =>
      by_cases h : k0 = k <;> simp [dget, h, ih, oOr]

theorem hasKey_false_iff (d : Dict) (k : String) :
    hasKey d k = false ↔ dget d k = none := by
  unfold hasKey
  cases h : dget d k <;> simp [h]

theorem hasKey_true_iff (d : Dict) (k : String) :
    hasKey d k = true ↔ ∃ v, dget d k = some v := by
  unfold hasKey
  cases h : dget d k <;> simp [h]

theorem dget_dsetdefault (d : Dict) (k0 k : String) (v : Value) :
    dget (dsetdefault d k0 v) k =
      oOr (dget d k) (if k0 = k ∧ hasKey d k0 = false then some v else none) := by
  unfold dsetdefault
  by_cases h : hasKey d k0
  · simp [h, oOr_none_right]
  · rw [Bool.not_eq_true] at h
    rw [if_neg (by simp [h]), dget_append]
    congr 1
    by_cases hk : k0 = k
    · subst hk
      simp [dget, h]
    · simp [dget, hk, h]

theorem dget_set_default_attributes (schema : Dict) :
    ∀ (d : Dict) (k : String),
      dget (set_default_attributes schema d) k = oOr (dget d k) (dget schema k) := by
  induction schema with
  | nil =>
    intro d k
    simp [set_default_attributes, dget, oOr_none_right]
  | cons kv rest ih =>
    intro d k
    cases kv with
    | mk k0 v0 =>
      have step : set_default_attributes ((k0, v0) :: rest) d =
          set_default_attributes rest (dsetdefault d k0 v0) := rfl
      rw [step, ih, dget_dsetdefault]
      by_cases hk : k0 = k
      · subst hk
        cases h : dget d k0 with
        | some v => simp [oOr, hasKey, h, dget]
        | none => simp [oOr, hasKey, h, dget]
      · cases h : dget d k with
        | some v => simp [oOr, hk, h, dget]
        | none => simp [oOr, hk, h, dget]

theorem dget_construct (schema d : Dict) (k : String) :
    dget (construct schema d) k = oOr (dget d k) (dget schema k) :=
  dget_set_default_attributes schema d k

theorem dget_ddel_ne (d : Dict) (k k' : String) (h : k' ≠ k) :
    dget (ddel d k) k' = dget d k' := by
  have hne : ¬(k = k') := fun hh => h hh.symm
  induction d with
  | nil => simp [ddel]
  | cons kv rest ih =>
    cases kv with
    | mk k0 w =>
      by_cases h0 : k0 = k
      · subst h0
        simp [ddel, dget, hne]
      · simp [ddel, dget, h0, ih]

/-! ## Generic decode lemmas -/

theorem lookup_none_of_any_false {α : Type} (l : List (String × α)) (k : String)
    (h : l.any (fun kv => kv.1 == k) = false) : l.lookup k = none := by
  induction l with
  | nil => rfl
  | cons kv rest ih =>
    cases kv with
    | mk k0 f =>
      simp only [List.any_cons, Bool.or_eq_false_iff] at h
      have h1 : (k == k0) = false := by
        have : k0 ≠ k := by simpa using h.1
        simp [this.symm]
      simp [List.lookup, h1, ih h.2]


theorem dget_mapKey_ne (f : Value → Option Value) (key : String) (d d' : Dict)
    (h : mapKey f key d = some d') (k : String) (hk : k ≠ key) :
    dget d' k = dget d k := by
  cases hv : dget d key with
  | none =>
    simp only [mapKey, hv] at h
    cases h
    rfl
  | some v =>
    simp only [mapKey, hv] at h
    cases hf : f v with
    | none => simp [hf] at h
    | some w =>
      rw [hf] at h
      simp only [Option.map_some'] at h
      cases h
      exact dget_dset_ne d key k w hk

theorem dget_mapKey_self (f : Value → Option Value) (key : String) (d d' : Dict)
    (h : mapKey f key d = some d') :
    dget d' key = (dget d key).bind f := by
  cases hv : dget d key with
  | none =>
    simp only [mapKey, hv] at h
    cases h
    simp [hv]
  | some v =>
    simp only [mapKey, hv] at h
    cases hf : f v with
    | none => simp [hf] at h
    | some w =>
      rw [hf] at h
      simp only [Option.map_some'] at h
      cases h
      simp [dget_dset_self, hf]

theorem dget_applyConvs (convs : List (String × (Value → Option Value))) :
    ∀ (d e : Dict), nodupKeysP convs = true → applyConvs convs d = some e →
      ∀ k, dget e k = (dget d k).bind (convOf convs k) := by
  induction convs with
  | nil =>
    intro d e _ h k
    cases h
    cases dget d k <;> simp [convOf, List.lookup]
  | cons kvf rest ih =>
    intro d e hn h k
    cases kvf with
    | mk k0 f =>
      simp only [nodupKeysP, Bool.and_eq_true, Bool.not_eq_true'] at hn
      unfold applyConvs at h
      cases hm : mapKey f k0 d with
      | none => rw [hm] at h; cases h
      | some d1 =>
        rw [hm] at h
        simp only [Option.some_bind] at h
        have ihk := ih d1 e hn.2 h k
        by_cases hk : k = k0
        · subst hk
          have hlk : convOf ((k, f) :: rest) k = f := by
            simp [convOf, List.lookup]
          have hres : convOf rest k = fun v => some v := by
            simp [convOf, lookup_none_of_any_false rest k hn.1]
          rw [ihk, hres, dget_mapKey_self f k d d1 hm, hlk]
          cases hv : dget d k with
          | none => simp
          | some v => cases f v <;> simp
        · have hbeq : (k == k0) = false := by simp [hk]
          have hlk : convOf ((k0, f) :: rest) k = convOf rest k := by
            simp [convOf, List.lookup, hbeq]
          rw [ihk, dget_mapKey_ne f k0 d d1 hm k hk, hlk]

theorem applyConvs_conv_some (convs : List (String × (Value → Option Value))) :
    ∀ (d e : Dict), applyConvs convs d = some e →
      ∀ (k : String) (f : Value → Option Value) (v : Value),
        convs.lookup k = some f → dget d k = some v → (f v).isSome := by
  induction convs with
  | nil => intro d e _ k f v hlk; cases hlk
  | cons kvf rest ih =>
    intro d e h k f v hlk hv
    cases kvf with
    | mk k0 g =>
      unfold applyConvs at h
      cases hm : mapKey g k0 d with
      | none => rw [hm] at h; cases h
      | some d1 =>
        rw [hm] at h
        simp only [Option.some_bind] at h
        by_cases hk : k = k0
        · subst hk
          have hfg : g = f := by simpa [List.lookup] using hlk
          subst hfg
          simp only [mapKey, hv] at hm
          cases hf : g v with
          | none => simp [hf] at hm
          | some w => simp
        · have hbeq : (k == k0) = false := by simp [hk]
          have hlk2 : rest.lookup k = some f := by
            simpa [List.lookup, hbeq] using hlk
          have hv2 : dget d1 k = some v := by
            rw [dget_mapKey_ne g k0 d d1 hm k hk, hv]
          exact ih d1 e h k f v hlk2 hv2

theorem decodeKind_spec (convs : List (String × (Value → Option Value)))
    (schema raw e : Dict) (hn : nodupKeysP convs = true)
    (h : decodeKind convs schema raw = some e) (k : String) :
    dget e k = oOr ((dget raw k).bind (convOf convs k)) (dget schema k) := by
  unfold decodeKind at h
  cases hm : applyConvs convs raw with
  | none => rw [hm] at h; cases h
  | some mid =>
    rw [hm] at h
    simp only [Option.map_some'] at h
    cases h
    rw [dget_construct, dget_applyConvs convs raw mid hn hm k]

theorem decodeKind_contract (convs : List (String × (Value → Option Value)))
    (schema : Dict) (hn : nodupKeysP convs = true) :
    decodeFieldContract convs schema (decodeKind convs schema) := by
  intro raw e k dv h hdv
  have heq := decodeKind_spec convs schema raw e hn h k
  constructor
  · intro habs
    rw [(hasKey_false_iff raw k).mp habs] at heq
    simpa [oOr, hdv] using heq
  · intro v hv
    rw [hv] at heq
    simp only [Option.some_bind] at heq
    unfold decodeKind at h
    cases hm : applyConvs convs raw with
    | none => rw [hm] at h; cases h
    | some mid =>
      cases hlk : convs.lookup k with
      | none =>
        rw [heq]
        simp [convOf, hlk, oOr]
      | some f =>
        have hsome := applyConvs_conv_some convs raw mid hm k f v hlk hv
        cases hf : f v with
        | none => simp [hf] at hsome
        | some w =>
          rw [heq]
          simp [convOf, hlk, hf, oOr]

theorem contract_parts (convs : List (String × (Value → Option Value)))
    (schema raw e mid : Dict) (hm : applyConvs convs raw = some mid)
    (k : String) (dv : Value) (hdv : dget schema k = some dv)
    (heq : dget e k = oOr ((dget raw k).bind (convOf convs k)) (dget schema k)) :
    (hasKey raw k = false → dget e k = some dv) ∧
    (∀ v : Value, dget raw k = some v → dget e k = convOf convs k v) := by
  constructor
  · intro habs
    rw [(hasKey_false_iff raw k).mp habs] at heq
    simpa [oOr, hdv] using heq
  · intro v hv
    rw [hv] at heq
    simp only [Option.some_bind] at heq
    cases hlk : convs.lookup k with
    | none =>
      rw [heq]
      simp [convOf, hlk, oOr]
    | some f =>
      have hsome := applyConvs_conv_some convs raw mid hm k f v hlk hv
      cases hf : f v with
      | none => simp [hf] at hsome
      | some w =>
        rw [heq]
        simp [convOf, hlk, hf, oOr]

theorem attachment_decode_contract :
    decodeFieldContract attachmentConvs Attachment.ATTRIBUTES _get_attachment := by
  intro raw e k dv h hdv
  have hks : k ≠ "size" := by
    intro hk
    subst hk
    have hnone : dget Attachment.ATTRIBUTES "size" = none := rfl
    rw [hnone] at hdv
    cases hdv
  unfold _get_attachment at h
  rw [Option.map_eq_some'] at h
  obtain ⟨mid, hm, he⟩ := h
  subst he
  refine contract_parts attachmentConvs Attachment.ATTRIBUTES raw _ mid hm k dv hdv ?_
  rw [dget_construct, dget_ddel_ne mid "size" k hks,
    dget_applyConvs attachmentConvs raw mid rfl hm k]

theorem userF_succ_eq (n : Nat) :
    _get_userF (n + 1) = decodeKind (userConvs n) User.ATTRIBUTES := by
  funext raw
  rfl

theorem groupF_succ_eq (n : Nat) :
    _get_groupF (n + 1) = decodeKind (groupConvs n) Group.ATTRIBUTES := by
  funext raw
  rfl

/-- Claim C1: for every supported entity kind, decoding a raw JSON object
applies each kind-declared conversion exactly to the fields present in the
payload and fills every absent schema field with the kind's declared default:
each `_get_*` decoder satisfies `decodeFieldContract` for its conversion
table and `ATTRIBUTES` schema (the user/group decoders at every sufficient
fuel, since they are mutually recursive). -/
theorem c1_decode_field_presence :
    decodeFieldContract afConvs AttachmentFlag.ATTRIBUTES _get_attachment_flag ∧
    decodeFieldContract attachmentConvs Attachment.ATTRIBUTES _get_attachment ∧
    decodeFieldContract bugConvs Bug.ATTRIBUTES _get_bug ∧
    decodeFieldContract historyConvs History.ATTRIBUTES _get_history ∧
    decodeFieldContract componentConvs Component.ATTRIBUTES _get_component ∧
    decodeFieldContract productConvs Product.ATTRIBUTES _get_product ∧
    decodeFieldContract [] FlagType.ATTRIBUTES _get_flag_type ∧
    decodeFieldContract [] Version.ATTRIBUTES _get_version ∧
    decodeFieldContract [] Milestone.ATTRIBUTES _get_milestone ∧
    decodeFieldContract [] Classification.ATTRIBUTES _get_classification ∧
    decodeFieldContract updateResultConvs UpdateResult.ATTRIBUTES _get_update_result ∧
    decodeFieldContract commentConvs Comment.ATTRIBUTES _get_comment ∧
    decodeFieldContract fieldConvs BugField.ATTRIBUTES _get_field ∧
    (∀ n : Nat, decodeFieldContract (userConvs n) User.ATTRIBUTES (_get_userF (n + 1))) ∧
    (∀ n : Nat, decodeFieldContract (groupConvs n) Group.ATTRIBUTES (_get_groupF (n + 1))) := by
  refine ⟨?_, attachment_decode_contract, ?_, ?_, ?_, ?_, ?_, ?_, ?_, ?_, ?_, ?_, ?_, ?_, ?_⟩
  · exact decodeKind_contract afConvs AttachmentFlag.ATTRIBUTES (by rfl)
  · exact decodeKind_contract bugConvs Bug.ATTRIBUTES (by rfl)
  · exact decodeKind_contract historyConvs History.ATTRIBUTES (by rfl)
  · exact decodeKind_contract componentConvs Component.ATTRIBUTES (by rfl)
  · exact decodeKind_contract productConvs Product.ATTRIBUTES (by rfl)
  · exact decodeKind_contract [] FlagType.ATTRIBUTES (by rfl)
  · exact decodeKind_contract [] Version.ATTRIBUTES (by rfl)
  · exact decodeKind_contract [] Milestone.ATTRIBUTES (by rfl)
  · exact decodeKind_contract [] Classification.ATTRIBUTES (by rfl)
  · exact decodeKind_contract updateResultConvs UpdateResult.ATTRIBUTES (by rfl)
  · exact decodeKind_contract commentConvs Comment.ATTRIBUTES (by rfl)
  · exact decodeKind_contract fieldConvs BugField.ATTRIBUTES (by rfl)
  · intro n
    rw [userF_succ_eq n]
    exact decodeKind_contract (userConvs n) User.ATTRIBUTES (by rfl)
  · intro n
    rw [groupF_succ_eq n]
    exact decodeKind_contract (groupConvs n) Group.ATTRIBUTES (by rfl)

/-- Witness for C1: decoding the raw bug payload with only a `summary` key
leaves `id` at the schema default `-1` and carries the present `summary`
through its (identity) conversion. -/
theorem c1_decode_field_presence_witness :
    dget (construct Bug.ATTRIBUTES [("summary", Value.vstr "hi")]) "id"
      = some (Value.vint (-1)) ∧
    dget (construct Bug.ATTRIBUTES [("summary", Value.vstr "hi")]) "summary"
      = some (Value.vstr "hi") :=
  ⟨(c1_decode_field_presence.2.2.1 [("summary", Value.vstr "hi")]
      (construct Bug.ATTRIBUTES [("summary", Value.vstr "hi")]) "id"
      (Value.vint (-1)) rfl rfl).1 rfl,
   ((c1_decode_field_presence.2.2.1 [("summary", Value.vstr "hi")]
      (construct Bug.ATTRIBUTES [("summary", Value.vstr "hi")]) "summary"
      (Value.vstr "") rfl rfl).2 (Value.vstr "hi") rfl).trans rfl⟩

/-! ## Key-set preservation lemmas -/

theorem hasKey_eq_contains (d : Dict) (k : String) :
    hasKey d k = (keysOf d).contains k := by
  induction d with
  | nil => rfl
  | cons kv rest ih =>
    cases kv with
    | mk k0 w =>
      by_cases h : k0 = k
      · subst h
        simp [hasKey, dget, keysOf]
      · have hne : ¬(k = k0) := fun hh => h hh.symm
        have hbeq : (k == k0) = false := by simp [hne]
        simp only [keysOf, List.map_cons, List.contains_cons, hbeq, Bool.false_or]
        rw [show (List.map Prod.fst rest).contains k = (keysOf rest).contains k from rfl,
          ← ih]
        simp [hasKey, dget, h]

theorem keysOf_dset_of_hasKey (d : Dict) (k : String) (v : Value)
    (h : hasKey d k = true) : keysOf (dset d k v) = keysOf d := by
  induction d with
  | nil => simp [hasKey, dget] at h
  | cons kv rest ih =>
    cases kv with
    | mk k0 w =>
      by_cases h0 : k0 = k
      · subst h0
        simp [dset, keysOf]
      · have h2 : hasKey rest k = true := by
          simpa [hasKey, dget, h0] using h
        simp [dset, keysOf, h0] at ih ⊢
        exact ih h2

theorem keysOf_mapKey (f : Value → Option Value) (key : String) (d d' : Dict)
    (h : mapKey f key d = some d') : keysOf d' = keysOf d := by
  cases hv : dget d key with
  | none =>
    simp only [mapKey, hv] at h
    cases h
    rfl
  | some v =>
    simp only [mapKey, hv] at h
    cases hf : f v with
    | none => simp [hf] at h
    | some w =>
      rw [hf] at h
      simp only [Option.map_some'] at h
      cases h
      exact keysOf_dset_of_hasKey d key w (by simp [hasKey, hv])

theorem keysOf_applyConvs (convs : List (String × (Value → Option Value))) :
    ∀ (d e : Dict), applyConvs convs d = some e → keysOf e = keysOf d := by
  induction convs with
  | nil =>
    intro d e h
    cases h
    rfl
  | cons kvf rest ih =>
    intro d e h
    cases kvf with
    | mk k0 f =>
      unfold applyConvs at h
      cases hm : mapKey f k0 d with
      | none => rw [hm] at h; cases h
      | some d1 =>
        rw [hm] at h
        simp only [Option.some_bind] at h
        rw [ih d1 e h, keysOf_mapKey f k0 d d1 hm]

theorem dget_ddel_self_of_nodup (d : Dict) (k : String)
    (h : nodupStr (keysOf d) = true) : dget (ddel d k) k = none := by
  induction d with
  | nil => rfl
  | cons kv rest ih =>
    cases kv with
    | mk k0 w =>
      simp only [keysOf, List.map_cons, nodupStr, Bool.and_eq_true,
        Bool.not_eq_true'] at h
      by_cases h0 : k0 = k
      · subst h0
        simp only [ddel, if_pos rfl]
        have hc : hasKey rest k0 = false := by
          rw [hasKey_eq_contains]
          exact h.1
        exact (hasKey_false_iff rest k0).mp hc
      · simp only [ddel, if_neg h0, dget, if_neg h0]
        exact ih h.2

/-! ## Claim C6: the attachment `size` virtual field -/

/-- Claim C6: reading `size` on an attachment returns exactly the length of
its `data`; a `size` key in raw wire data is discarded by
`Bugzilla._get_attachment` before construction, so the decoded attachment
carries no stored `size` and reports the length of the decoded (or default)
data regardless of the wire value; and assigning `size` raises
(`Attachment.__setitem__` fails before touching the dict). -/
theorem c6_attachment_size_virtual :
    (∀ (a : Dict) (bs : List Nat), dget a "data" = some (.vbytes bs) →
      Attachment.getitem a "size" = some (.vint bs.length)) ∧
    (∀ raw e : Dict, nodupStr (keysOf raw) = true → _get_attachment raw = some e →
      hasKey e "size" = false ∧
      (hasKey raw "data" = false → Attachment.getitem e "size" = some (.vint 0)) ∧
      (∀ (s : String) (bs : List Nat), dget raw "data" = some (.vstr s) →
        b64decode s = some bs →
        Attachment.getitem e "size" = some (.vint bs.length))) ∧
    (∀ (a : Dict) (v : Value), Attachment.setitem a "size" v = none) := by
  refine ⟨?_, ?_, ?_⟩
  · intro a bs h
    simp [Attachment.getitem, h, pyLenV]
  · intro raw e hnd h
    have hdata0 : dget Attachment.ATTRIBUTES "data" = some (.vbytes []) := rfl
    have hcontract := attachment_decode_contract raw e "data" (.vbytes []) h hdata0
    have hsz : dget e "size" = none := by
      unfold _get_attachment at h
      rw [Option.map_eq_some'] at h
      obtain ⟨mid, hm, he⟩ := h
      subst he
      rw [dget_construct]
      have hmid : dget (ddel mid "size") "size" = none := by
        apply dget_ddel_self_of_nodup
        rw [keysOf_applyConvs attachmentConvs raw mid hm]
        exact hnd
      rw [hmid]
      rfl
    refine ⟨by simp [hasKey, hsz], ?_, ?_⟩
    · intro habs
      have hd := hcontract.1 habs
      simp [Attachment.getitem, hd, pyLenV]
    · intro s bs hraw hb64
      have hd := hcontract.2 (.vstr s) hraw
      have hconv : convOf attachmentConvs "data" (.vstr s) = some (.vbytes bs) := by
        show bc b64Conv (.vstr s) = some (.vbytes bs)
        simp [bc, b64Conv, hb64]
      rw [hconv] at hd
      simp [Attachment.getitem, hd, pyLenV]
  · intro a v
    rfl

/-- Witness for C6: an attachment whose wire payload carries a stale
`size` of 99 next to the three-byte payload `AAAA`; after decode the stored
`size` is gone and the virtual `size` reads 3. -/
theorem c6_attachment_size_virtual_witness :
    Attachment.getitem [("data", Value.vbytes [7, 8])] "size" = some (.vint 2) ∧
    hasKey (construct Attachment.ATTRIBUTES [("data", Value.vbytes [0, 0, 0])]) "size"
      = false ∧
    Attachment.setitem [] "size" Value.vnull = none := by
  refine ⟨c6_attachment_size_virtual.1 [("data", Value.vbytes [7, 8])] [7, 8] rfl, ?_,
    c6_attachment_size_virtual.2.2 [] Value.vnull⟩
  have h := (c6_attachment_size_virtual.2.1
    [("size", Value.vint 99), ("data", Value.vstr "AAAA")]
    (construct Attachment.ATTRIBUTES
      (ddel (dset [("size", Value.vint 99), ("data", Value.vstr "AAAA")]
        "data" (Value.vbytes [0, 0, 0])) "size"))
    rfl rfl).1
  simpa using h

/-! ## Projection-loop lemmas -/

theorem hasKey_dset_self (d : Dict) (k : String) (v : Value) :
    hasKey (dset d k v) k = true := by
  simp [hasKey, dget_dset_self]

theorem hasKey_dset_mono (d : Dict) (k k0 : String) (v : Value)
    (h : hasKey d k = true) : hasKey (dset d k0 v) k = true := by
  by_cases hk : k = k0
  · subst hk
    exact hasKey_dset_self d k v
  · unfold hasKey
    rw [dget_dset_ne d k0 k v hk]
    exact h

theorem hasKey_dset_inv (d : Dict) (k k0 : String) (v : Value)
    (h : hasKey (dset d k0 v) k = true) : k = k0 ∨ hasKey d k = true := by
  by_cases hk : k = k0
  · exact Or.inl hk
  · right
    unfold hasKey at h
    rwa [dget_dset_ne d k0 k v hk] at h

theorem updFieldsLoop_mem (getf : String → Option Value) :
    ∀ (fs : List String) (dct j : Dict), updFieldsLoop getf fs dct = some j →
      ∀ k, fs.contains k = true ∨ hasKey dct k = true → hasKey j k = true := by
  intro fs
  induction fs with
  | nil =>
    intro dct j h k hk
    cases h
    rcases hk with hk | hk
    · simp at hk
    · exact hk
  | cons f rest ih =>
    intro dct j h k hk
    unfold updFieldsLoop at h
    cases hv : getf f with
    | none => rw [hv] at h; cases h
    | some v =>
      rw [hv] at h
      simp only [Option.some_bind] at h
      refine ih (dset dct f v) j h k ?_
      by_cases hkf : k = f
      · subst hkf
        exact Or.inr (hasKey_dset_self dct k v)
      · rcases hk with hk | hk
        · left
          simpa [hkf] using hk
        · exact Or.inr (hasKey_dset_mono dct k f v hk)

theorem updFieldsLoop_inv (getf : String → Option Value) :
    ∀ (fs : List String) (dct j : Dict), updFieldsLoop getf fs dct = some j →
      ∀ k, hasKey j k = true → fs.contains k = true ∨ hasKey dct k = true := by
  intro fs
  induction fs with
  | nil =>
    intro dct j h k hk
    cases h
    exact Or.inr hk
  | cons f rest ih =>
    intro dct j h k hk
    unfold updFieldsLoop at h
    cases hv : getf f with
    | none => rw [hv] at h; cases h
    | some v =>
      rw [hv] at h
      simp only [Option.some_bind] at h
      rcases ih (dset dct f v) j h k hk with hcase | hcase
      · left
        simp only [List.contains_cons, hcase, Bool.or_true]
      · rcases hasKey_dset_inv dct k f v hcase with hkf | hdc
        · subst hkf
          left
          simp
        · exact Or.inr hdc

theorem updFieldsLoop_fixed (getf : String → Option Value) :
    ∀ (fs : List String) (dct j : Dict), updFieldsLoop getf fs dct = some j →
      ∀ k, fs.contains k = false → dget j k = dget dct k := by
  intro fs
  induction fs with
  | nil =>
    intro dct j h k _
    cases h
    rfl
  | cons f rest ih =>
    intro dct j h k hk
    unfold updFieldsLoop at h
    cases hv : getf f with
    | none => rw [hv] at h; cases h
    | some v =>
      rw [hv] at h
      simp only [Option.some_bind] at h
      simp only [List.contains_cons, Bool.or_eq_false_iff] at hk
      have hkf : k ≠ f := by
        intro hh
        subst hh
        simp at hk
      rw [ih (dset dct f v) j h k hk.2, dget_dset_ne dct f k v hkf]

theorem hasKey_condset_mono (c : Bool) (d : Dict) (k0 : String) (v : Value)
    (k : String) (h : hasKey d k = true) :
    hasKey (if c then dset d k0 v else d) k = true := by
  cases c
  · simpa using h
  · simpa using hasKey_dset_mono d k k0 v h

theorem hasKey_condset_inv (c : Bool) (d : Dict) (k0 : String) (v : Value)
    (k : String) (h : hasKey (if c then dset d k0 v else d) k = true) :
    k = k0 ∨ hasKey d k = true := by
  cases c
  · simp only [Bool.false_eq_true, if_false] at h
    exact Or.inr h
  · simp only [if_true] at h
    exact hasKey_dset_inv d k k0 v h

/-! ## Claim C10: `FlagType.update_json` delegates to `FlagType.add_json` -/

/-- Claim C10: `FlagType.update_json` returns exactly `FlagType.add_json`'s
object; that object always carries `name`, `description`, `is_active`,
`is_requestable`, `cc_list` and `is_multiplicable`; it carries `grant_group`
or `request_group` only when the field is non-default (in particular never
for the `None` default); `sort_key` is never emitted under its own name, and
appears under the renamed key `sortkey` exactly when it is a nonzero
integer (with its value passed through). -/
theorem c10_flagtype_update_equals_add :
    (∀ ft : Dict, FlagType.update_json ft = FlagType.add_json ft) ∧
    (∀ ft j : Dict, FlagType.add_json ft = some j →
      (hasKey j "name" = true ∧ hasKey j "description" = true ∧
       hasKey j "is_active" = true ∧ hasKey j "is_requestable" = true ∧
       hasKey j "cc_list" = true ∧ hasKey j "is_multiplicable" = true) ∧
      (hasKey j "grant_group" = true → dget ft "grant_group" ≠ some Value.vnull) ∧
      (hasKey j "request_group" = true → dget ft "request_group" ≠ some Value.vnull) ∧
      hasKey j "sort_key" = false ∧
      (∀ n : Int, dget ft "sort_key" = some (.vint n) →
        hasKey j "sortkey" = (n != 0) ∧
        (n ≠ 0 → dget j "sortkey" = some (.vint n)))) := by
  refine ⟨fun ft => rfl, ?_⟩
  intro ft j h
  simp only [FlagType.add_json, Option.bind_eq_bind, Option.bind_eq_some,
    Option.some.injEq] at h
  obtain ⟨dct0, hloop, gg, hgg, rg, hrg, sk, hsk, hj⟩ := h
  have hmem : ∀ k : String,
      (["name", "description", "is_active", "is_requestable", "cc_list",
        "is_multiplicable"].contains k) = true → hasKey dct0 k = true :=
    fun k hk => updFieldsLoop_mem (dget ft) _ [] dct0 hloop k (Or.inl hk)
  have hinv0 : ∀ k : String, hasKey dct0 k = true →
      (["name", "description", "is_active", "is_requestable", "cc_list",
        "is_multiplicable"].contains k) = true := by
    intro k hk
    rcases updFieldsLoop_inv (dget ft) _ [] dct0 hloop k hk with h' | h'
    · exact h'
    · simp [hasKey, dget] at h'
  subst hj
  have hup : ∀ k : String,
      hasKey (if pyTruthy sk
          then dset (if pyTruthy rg
            then dset (if pyTruthy gg then dset dct0 "grant_group" gg else dct0)
              "request_group" rg
            else (if pyTruthy gg then dset dct0 "grant_group" gg else dct0))
            "sortkey" sk
          else (if pyTruthy rg
            then dset (if pyTruthy gg then dset dct0 "grant_group" gg else dct0)
              "request_group" rg
            else (if pyTruthy gg then dset dct0 "grant_group" gg else dct0))) k = true →
      k = "sortkey" ∨ k = "request_group" ∨ k = "grant_group" ∨ hasKey dct0 k = true := by
    intro k hk
    rcases hasKey_condset_inv _ _ _ _ k hk with h1 | h1
    · exact Or.inl h1
    rcases hasKey_condset_inv _ _ _ _ k h1 with h2 | h2
    · exact Or.inr (Or.inl h2)
    rcases hasKey_condset_inv _ _ _ _ k h2 with h3 | h3
    · exact Or.inr (Or.inr (Or.inl h3))
    · exact Or.inr (Or.inr (Or.inr h3))
  refine ⟨?_, ?_, ?_, ?_, ?_⟩
  · exact ⟨hasKey_condset_mono _ _ _ _ _ (hasKey_condset_mono _ _ _ _ _
        (hasKey_condset_mono _ _ _ _ _ (hmem "name" (by decide)))),
      hasKey_condset_mono _ _ _ _ _ (hasKey_condset_mono _ _ _ _ _
        (hasKey_condset_mono _ _ _ _ _ (hmem "description" (by decide)))),
      hasKey_condset_mono _ _ _ _ _ (hasKey_condset_mono _ _ _ _ _
        (hasKey_condset_mono _ _ _ _ _ (hmem "is_active" (by decide)))),
      hasKey_condset_mono _ _ _ _ _ (hasKey_condset_mono _ _ _ _ _
        (hasKey_condset_mono _ _ _ _ _ (hmem "is_requestable" (by decide)))),
      hasKey_condset_mono _ _ _ _ _ (hasKey_condset_mono _ _ _ _ _
        (hasKey_condset_mono _ _ _ _ _ (hmem "cc_list" (by decide)))),
      hasKey_condset_mono _ _ _ _ _ (hasKey_condset_mono _ _ _ _ _
        (hasKey_condset_mono _ _ _ _ _ (hmem "is_multiplicable" (by decide))))⟩
  · intro hkj heq
    rw [hgg] at heq
    have hggv : gg = Value.vnull := by
      injection heq.symm with h'
      exact h'.symm
    subst hggv
    have : pyTruthy Value.vnull = false := rfl
    rcases hup "grant_group" hkj with h' | h' | h' | h'
    · exact absurd h' (by decide)
    · exact absurd h' (by decide)
    · rw [this] at hkj
      rcases hasKey_condset_inv _ _ _ _ _ hkj with h2 | h2
      · exact absurd h2 (by decide)
      rcases hasKey_condset_inv _ _ _ _ _ h2 with h3 | h3
      · exact absurd h3 (by decide)
      simp only [Bool.false_eq_true, if_false] at h3
      have := hinv0 "grant_group" h3
      simp at this
    · have := hinv0 "grant_group" h'
      simp at this
  · intro hkj heq
    rw [hrg] at heq
    have hrgv : rg = Value.vnull := by
      injection heq.symm with h'
      exact h'.symm
    subst hrgv
    have hf : pyTruthy Value.vnull = false := rfl
    rw [hf] at hkj
    rcases hasKey_condset_inv _ _ _ _ _ hkj with h1 | h1
    · exact absurd h1 (by decide)
    simp only [Bool.false_eq_true, if_false] at h1
    rcases hasKey_condset_inv _ _ _ _ _ h1 with h2 | h2
    · exact absurd h2 (by decide)
    have := hinv0 "request_group" h2
    simp at this
  · cases hcase : hasKey (if pyTruthy sk
        then dset (if pyTruthy rg
          then dset (if pyTruthy gg then dset dct0 "grant_group" gg else dct0)
            "request_group" rg
          else (if pyTruthy gg then dset dct0 "grant_group" gg else dct0))
          "sortkey" sk
        else (if pyTruthy rg
          then dset (if pyTruthy gg then dset dct0 "grant_group" gg else dct0)
            "request_group" rg
          else (if pyTruthy gg then dset dct0 "grant_group" gg else dct0)))
      "sort_key" with
    | false => rfl
    | true =>
      rcases hup "sort_key" hcase with h' | h' | h' | h'
      · exact absurd h' (by decide)
      · exact absurd h' (by decide)
      · exact absurd h' (by decide)
      · have := hinv0 "sort_key" h'
        simp at this
  · intro n hn
    rw [hn] at hsk
    have hskv : sk = Value.vint n := by
      injection hsk with h'
      exact h'.symm
    subst hskv
    have htr : pyTruthy (Value.vint n) = (n != 0) := rfl
    constructor
    · cases hne : (n != 0) with
      | true =>
        rw [htr, hne]
        simp only [if_true]
        exact hasKey_dset_self _ _ _
      | false =>
        rw [htr, hne]
        simp only [Bool.false_eq_true, if_false]
        cases hcase : hasKey (if pyTruthy rg
            then dset (if pyTruthy gg then dset dct0 "grant_group" gg else dct0)
              "request_group" rg
            else (if pyTruthy gg then dset dct0 "grant_group" gg else dct0))
          "sortkey" with
        | false => rfl
        | true =>
          rcases hasKey_condset_inv _ _ _ _ _ hcase with h1 | h1
          · exact absurd h1 (by decide)
          rcases hasKey_condset_inv _ _ _ _ _ h1 with h2 | h2
          · exact absurd h2 (by decide)
          have := hinv0 "sortkey" h2
          simp at this
    · intro hne
      have hne' : (n != 0) = true := by simpa using hne
      rw [htr, hne']
      simp only [if_true]
      exact dget_dset_self _ _ _

/-- Witness for C10: on a default-constructed flag type the update projection
is the add projection, carries `name`, and omits `sortkey` (the zero
default). -/
theorem c10_flagtype_update_equals_add_witness :
    FlagType.update_json (construct FlagType.ATTRIBUTES [])
      = FlagType.add_json (construct FlagType.ATTRIBUTES []) ∧
    hasKey [("name", Value.vstr ""), ("description", Value.vstr ""),
      ("is_active", Value.vbool true), ("is_requestable", Value.vbool true),
      ("cc_list", Value.vlist []), ("is_multiplicable", Value.vbool true)]
      "name" = true ∧
    hasKey [("name", Value.vstr ""), ("description", Value.vstr ""),
      ("is_active", Value.vbool true), ("is_requestable", Value.vbool true),
      ("cc_list", Value.vlist []), ("is_multiplicable", Value.vbool true)]
      "sortkey" = false :=
  ⟨c10_flagtype_update_equals_add.1 (construct FlagType.ATTRIBUTES []),
   ((c10_flagtype_update_equals_add.2 (construct FlagType.ATTRIBUTES []) _ rfl).1).1,
   ((c10_flagtype_update_equals_add.2 (construct FlagType.ATTRIBUTES []) _ rfl).2.2.2.2
     0 rfl).1⟩

/-! ## Claim C3: the creation predicates -/

/-- Claim C3: for each kind the claim lists, `can_be_added` is true exactly
when every kind-specific required field is non-default, for fields of their
schema string type (the defaults of all the listed required fields are the
empty string in the respective `ATTRIBUTES`): Bug requires
product/component/summary/version, Attachment requires
file_name/summary/content_type, User requires email, Group requires
name/description. -/
theorem c3_can_be_added_iff_required_nondefault :
    (∀ (b : Dict) (p c s v : String),
      Bug.getitem b "product" = some (.vstr p) →
      Bug.getitem b "component" = some (.vstr c) →
      Bug.getitem b "summary" = some (.vstr s) →
      Bug.getitem b "version" = some (.vstr v) →
      (Bug.can_be_added b = some true ↔ (p ≠ "" ∧ c ≠ "" ∧ s ≠ "" ∧ v ≠ ""))) ∧
    (∀ (a : Dict) (f s ct : String),
      Attachment.getitem a "file_name" = some (.vstr f) →
      Attachment.getitem a "summary" = some (.vstr s) →
      Attachment.getitem a "content_type" = some (.vstr ct) →
      (Attachment.can_be_added a = some true ↔ (f ≠ "" ∧ s ≠ "" ∧ ct ≠ ""))) ∧
    (∀ (u : Dict) (e : String),
      dget u "email" = some (.vstr e) →
      (User.can_be_added u = some true ↔ e ≠ "")) ∧
    (∀ (g : Dict) (n d : String),
      dget g "name" = some (.vstr n) →
      dget g "description" = some (.vstr d) →
      (Group.can_be_added g = some true ↔ (n ≠ "" ∧ d ≠ ""))) := by
  refine ⟨?_, ?_, ?_, ?_⟩
  · intro b p c s v hp hc hs hv
    simp only [Bug.can_be_added, hp, hc, hs, hv, Option.bind_eq_bind,
      Option.some_bind, pyTruthy]
    by_cases h1 : p = "" <;> by_cases h2 : c = "" <;> by_cases h3 : s = "" <;>
      by_cases h4 : v = "" <;> simp [h1, h2, h3, h4]
  · intro a f s ct hf hs hct
    simp only [Attachment.can_be_added, hf, hs, hct, Option.bind_eq_bind,
      Option.some_bind, pyTruthy]
    by_cases h1 : f = "" <;> by_cases h2 : s = "" <;> by_cases h3 : ct = "" <;>
      simp [h1, h2, h3]
  · intro u e he
    simp only [User.can_be_added, he, Option.bind_eq_bind, Option.some_bind, pyTruthy]
    by_cases h1 : e = "" <;> simp [h1]
  · intro g n d hn hd
    simp only [Group.can_be_added, hn, hd, Option.bind_eq_bind, Option.some_bind,
      pyTruthy]
    by_cases h1 : n = "" <;> by_cases h2 : d = "" <;> simp [h1, h2]

set_option maxRecDepth 4000 in
/-- Witness for C3: a fully default bug cannot be added; a bug with the four
required fields set can be. -/
theorem c3_can_be_added_iff_required_nondefault_witness :
    (Bug.can_be_added (construct Bug.ATTRIBUTES []) = some true ↔
      ("" : String) ≠ "" ∧ ("" : String) ≠ "" ∧ ("" : String) ≠ ""
        ∧ ("" : String) ≠ "") ∧
    (Bug.can_be_added (construct Bug.ATTRIBUTES
        [("product", Value.vstr "p"), ("component", Value.vstr "c"),
         ("summary", Value.vstr "s"), ("version", Value.vstr "v")]) = some true ↔
      ("p" : String) ≠ "" ∧ ("c" : String) ≠ "" ∧ ("s" : String) ≠ ""
        ∧ ("v" : String) ≠ "") :=
  ⟨c3_can_be_added_iff_required_nondefault.1 (construct Bug.ATTRIBUTES [])
      "" "" "" "" rfl rfl rfl rfl,
   c3_can_be_added_iff_required_nondefault.1 (construct Bug.ATTRIBUTES
        [("product", Value.vstr "p"), ("component", Value.vstr "c"),
         ("summary", Value.vstr "s"), ("version", Value.vstr "v")])
      "p" "c" "s" "v" rfl rfl rfl rfl⟩

/-! ## Claim C2: the create projection of a bug -/

theorem dget_dset_inv (d : Dict) (k0 k : String) (w v : Value)
    (h : dget (dset d k0 w) k = some v) :
    (k = k0 ∧ v = w) ∨ dget d k = some v := by
  by_cases hk : k = k0
  · subst hk
    rw [dget_dset_self] at h
    injection h with h'
    exact Or.inl ⟨rfl, h'.symm⟩
  · rw [dget_dset_ne d k0 k w hk] at h
    exact Or.inr h

theorem addFieldsLoop_entries (getf : String → Option Value)
    (P : String → Value → Prop) :
    ∀ (fs : List String) (dct j : Dict), addFieldsLoop getf fs dct = some j →
      (∀ k v, dget dct k = some v → P k v) →
      (∀ f, f ∈ fs → ∀ v, getf f = some v → pyTruthy v = true → P f v) →
      ∀ k v, dget j k = some v → P k v := by
  intro fs
  induction fs with
  | nil =>
    intro dct j h hdct _ k v hkv
    cases h
    exact hdct k v hkv
  | cons f rest ih =>
    intro dct j h hdct hfs k v hkv
    unfold addFieldsLoop at h
    cases hw : getf f with
    | none => rw [hw] at h; simp at h
    | some w =>
      rw [hw] at h
      dsimp only at h
      by_cases htr : pyTruthy w = true
      · rw [if_pos htr] at h
        refine ih (dset dct f w) j h ?_ ?_ k v hkv
        · intro k' v' hk'
          rcases dget_dset_inv dct f k' w v' hk' with ⟨hk1, hv1⟩ | hd
          · subst hk1
            subst hv1
            exact hfs k' (by simp) v' hw htr
          · exact hdct k' v' hd
        · intro f' hf' v' hv' ht'
          exact hfs f' (by simp [hf']) v' hv' ht'
      · rw [if_neg htr] at h
        refine ih dct j h hdct ?_ k v hkv
        intro f' hf' v' hv' ht'
        exact hfs f' (by simp [hf']) v' hv' ht'

theorem dictUpdate_entries (P : String → Value → Prop) :
    ∀ (other d : Dict), (∀ k v, dget d k = some v → P k v) →
      (∀ kv, kv ∈ other → ∀ v, P kv.1 v) →
      ∀ k v, dget (dictUpdate d other) k = some v → P k v := by
  intro other
  induction other with
  | nil =>
    intro d hd _ k v hkv
    exact hd k v hkv
  | cons kv0 rest ih =>
    intro d hd hmem k v hkv
    cases kv0 with
    | mk k0 w0 =>
      have hstep : dictUpdate d ((k0, w0) :: rest) = dictUpdate (dset d k0 w0) rest := rfl
      rw [hstep] at hkv
      refine ih (dset d k0 w0) ?_ ?_ k v hkv
      · intro k' v' hk'
        rcases dget_dset_inv d k0 k' w0 v' hk' with ⟨hk1, _⟩ | hd'
        · subst hk1
          exact hmem (k', w0) (by simp) v'
        · exact hd k' v' hd'
      · intro kv hkv' v'
        exact hmem kv (by simp [hkv']) v'

theorem ne_some_of_truthy (o : Option Value) (v dflt : Value)
    (hv : pyTruthy v = true) (hd : pyTruthy dflt = false) (ho : o = some dflt) :
    o ≠ some v := by
  intro h
  rw [ho] at h
  injection h with h'
  rw [h'] at hd
  rw [hv] at hd
  cases hd

theorem addFieldsLoop_dget_truthy (getf : String → Option Value) :
    ∀ (fs : List String) (dct out : Dict),
      addFieldsLoop getf fs dct = some out →
      ∀ (f : String) (v : Value), getf f = some v → pyTruthy v = true →
      (f ∈ fs ∨ dget dct f = some v) → dget out f = some v := by
  intro fs
  induction fs with
  | nil =>
    intro dct out h f v hg htr hin
    cases h
    rcases hin with hmem | hdct
    · cases hmem
    · exact hdct
  | cons g rest ih =>
    intro dct out h f v hg htr hin
    unfold addFieldsLoop at h
    cases hgg : getf g with
    | none => rw [hgg] at h; cases h
    | some w =>
      rw [hgg] at h
      dsimp only at h
      apply ih _ _ h f v hg htr
      rcases hin with hmem | hdct
      · rcases List.mem_cons.mp hmem with heq | hmem'
        · subst heq
          right
          rw [hg] at hgg
          injection hgg with hw
          subst hw
          rw [if_pos htr]
          exact dget_dset_self dct f v
        · left
          exact hmem'
      · right
        by_cases hfg : f = g
        · subst hfg
          rw [hg] at hgg
          injection hgg with hw
          subst hw
          rw [if_pos htr]
          exact dget_dset_self dct f v
        · by_cases htw : pyTruthy w = true
          · rw [if_pos htw, dget_dset_ne dct g f w hfg]
            exact hdct
          · rw [if_neg htw]
            exact hdct

theorem dget_dictUpdate_absent (other : Dict) :
    ∀ (d : Dict) (k : String), ((keysOf other).contains k) = false →
      dget (dictUpdate d other) k = dget d k := by
  induction other with
  | nil => intro d k _; rfl
  | cons kv rest ih =>
    intro d k h
    cases kv with
    | mk k0 w0 =>
      simp only [keysOf, List.map_cons, List.contains_cons,
        Bool.or_eq_false_iff] at h
      have hne : k ≠ k0 := by
        have := h.1
        simpa [beq_eq_false_iff_ne] using this
      have hstep : dictUpdate d ((k0, w0) :: rest) = dictUpdate (dset d k0 w0) rest :=
        rfl
      rw [hstep, ih (dset d k0 w0) k (by simpa [keysOf] using h.2),
        dget_dset_ne d k0 k w0 hne]

theorem get_custom_fields_contains_false (b : Dict) (k : String)
    (h : startsWithCf k = false) :
    ((keysOf (Bug.get_custom_fields b)).contains k) = false := by
  induction b with
  | nil => rfl
  | cons kv rest ih =>
    unfold Bug.get_custom_fields at ih ⊢
    rw [List.filter_cons]
    by_cases hc : startsWithCf kv.1 = true
    · rw [if_pos (by simpa using hc)]
      simp only [keysOf, List.map_cons, List.contains_cons, Bool.or_eq_false_iff]
      constructor
      · cases hbeq : k == kv.1
        · rfl
        · have : k = kv.1 := by simpa using hbeq
          rw [← this] at hc
          rw [h] at hc
          cases hc
      · exact ih
    · rw [if_neg (by simpa using hc)]
      exact ih

theorem bug_can_be_added_truthy (b : Dict) (h : Bug.can_be_added b = some true) :
    ∀ f ∈ (["product", "component", "summary", "version"] : List String),
      ∃ v, Bug.getitem b f = some v ∧ pyTruthy v = true := by
  simp only [Bug.can_be_added, Option.pure_def, Option.bind_eq_bind,
    Option.some_bind, Option.bind_eq_some] at h
  obtain ⟨p, hp, h⟩ := h
  by_cases htp : pyTruthy p = true
  · rw [if_neg (by simp [htp])] at h
    simp only [Option.pure_def, Option.bind_eq_bind, Option.some_bind,
      Option.bind_eq_some] at h
    obtain ⟨c, hc, h⟩ := h
    by_cases htc : pyTruthy c = true
    · rw [if_neg (by simp [htc])] at h
      simp only [Option.pure_def, Option.bind_eq_bind, Option.some_bind,
        Option.bind_eq_some] at h
      obtain ⟨s, hs, h⟩ := h
      by_cases hts : pyTruthy s = true
      · rw [if_neg (by simp [hts])] at h
        simp only [Option.pure_def, Option.bind_eq_bind, Option.some_bind,
          Option.bind_eq_some, Option.some.injEq] at h
        obtain ⟨v, hv, htv⟩ := h
        intro f hf
        fin_cases hf
        · exact ⟨p, hp, htp⟩
        · exact ⟨c, hc, htc⟩
        · exact ⟨s, hs, hts⟩
        · exact ⟨v, hv, htv⟩
      · rw [if_pos (by simp [hts])] at h
        simp at h
    · rw [if_pos (by simp [htc])] at h
      simp at h
  · rw [if_pos (by simp [htp])] at h
    simp at h

set_option maxRecDepth 10000 in
/-- Claim C2 is false on the code: `Bug.add_json` emits the `flags` key
unconditionally, so a valid bug whose flag list is still the schema default
`[]` produces a projection containing `flags` mapped to the default `[]`,
which is neither one of the four mandatory fields nor a `cf_` custom field. -/
theorem c2_add_json_counterexample :
    Bug.can_be_added (construct Bug.ATTRIBUTES
      [("product", Value.vstr "p"), ("component", Value.vstr "c"),
       ("summary", Value.vstr "s"), ("version", Value.vstr "v")]) = some true ∧
    Bug.add_json (construct Bug.ATTRIBUTES
      [("product", Value.vstr "p"), ("component", Value.vstr "c"),
       ("summary", Value.vstr "s"), ("version", Value.vstr "v")]) =
      some [("product", Value.vstr "p"), ("component", Value.vstr "c"),
            ("summary", Value.vstr "s"), ("version", Value.vstr "v"),
            ("flags", Value.vlist [])] ∧
    dget [("product", Value.vstr "p"), ("component", Value.vstr "c"),
          ("summary", Value.vstr "s"), ("version", Value.vstr "v"),
          ("flags", Value.vlist [])] "flags" = some (Value.vlist []) ∧
    dget Bug.ATTRIBUTES "flags" = some (Value.vlist []) ∧
    (["product", "component", "summary", "version"].contains "flags") = false ∧
    startsWithCf "flags" = false :=
  ⟨rfl, rfl, rfl, rfl, rfl, rfl⟩

/-- Claim C2 (amended): on a valid bug, every key of the `add_json`
projection is one of the four mandatory fields, a `cf_`-prefixed custom
field, or maps to a value different from the Bug schema's default for that
key — EXCEPT the `flags` key, which `add_json` emits unconditionally (as the
projected flag list, `[]` when the bug carries no flags), even when that
value equals the schema default.  Moreover the four mandatory fields are
each included whenever set, not unconditionally blank: on a valid bug each
of them is truthy, and the projection carries exactly the bug's own value
for it. -/
theorem c2_add_json_nondefault_amended :
    ∀ b j : Dict, Bug.can_be_added b = some true → Bug.add_json b = some j →
      (∀ (k : String) (v : Value), dget j k = some v →
        (["product", "component", "summary", "version"].contains k) = true ∨
        startsWithCf k = true ∨ k = "flags" ∨
        dget Bug.ATTRIBUTES k ≠ some v) ∧
      (∀ f ∈ (["product", "component", "summary", "version"] : List String),
        ∃ v, Bug.getitem b f = some v ∧ pyTruthy v = true ∧
          dget j f = some v) := by
  intro b j hcan hadd
  simp only [Bug.add_json, Option.bind_eq_bind, Option.bind_eq_some,
    Option.some.injEq] at hadd
  obtain ⟨dct0, hloop, fv, hfv, fl, hfl, hj⟩ := hadd
  subst hj
  constructor
  case right =>
    intro f hf
    obtain ⟨v, hv, htr⟩ := bug_can_be_added_truthy b hcan f hf
    refine ⟨v, hv, htr, ?_⟩
    fin_cases hf <;>
      rw [dget_dictUpdate_absent (Bug.get_custom_fields b) (dset dct0 "flags" fl) _
          (get_custom_fields_contains_false b _ (by decide)),
        dget_dset_ne dct0 "flags" _ fl (by decide)] <;>
      exact addFieldsLoop_dget_truthy (Bug.getitem b) Bug.addFields [] dct0 hloop
        _ v hv htr (Or.inl (by decide))
  case left =>
  intro k v hkv
  refine dictUpdate_entries (fun k v =>
      (["product", "component", "summary", "version"].contains k) = true ∨
      startsWithCf k = true ∨ k = "flags" ∨ dget Bug.ATTRIBUTES k ≠ some v)
    (Bug.get_custom_fields b) (dset dct0 "flags" fl) ?_ ?_ k v hkv
  · intro k' v' hk'
    rcases dget_dset_inv dct0 "flags" k' fl v' hk' with ⟨hk1, _⟩ | hd
    · subst hk1
      exact Or.inr (Or.inr (Or.inl rfl))
    · refine addFieldsLoop_entries (Bug.getitem b) (fun k v =>
          (["product", "component", "summary", "version"].contains k) = true ∨
          startsWithCf k = true ∨ k = "flags" ∨ dget Bug.ATTRIBUTES k ≠ some v)
        Bug.addFields [] dct0 hloop ?_ ?_ k' v' hd
      · intro k'' v'' h''
        simp [dget] at h''
      · intro f hf w _ htr
        fin_cases hf
        · exact Or.inl (by decide)
        · exact Or.inl (by decide)
        · exact Or.inl (by decide)
        · exact Or.inl (by decide)
        · exact Or.inr (Or.inr (Or.inr
            (ne_some_of_truthy _ w (Value.vstr "") htr rfl rfl)))
        · exact Or.inr (Or.inr (Or.inr
            (ne_some_of_truthy _ w (Value.vstr "") htr rfl rfl)))
        · exact Or.inr (Or.inr (Or.inr
            (ne_some_of_truthy _ w (Value.vstr "") htr rfl rfl)))
        · exact Or.inr (Or.inr (Or.inr
            (ne_some_of_truthy _ w (Value.vstr "") htr rfl rfl)))
        · exact Or.inr (Or.inr (Or.inr
            (ne_some_of_truthy _ w (Value.vlist []) htr rfl rfl)))
        · exact Or.inr (Or.inr (Or.inr (by
            rw [show dget Bug.ATTRIBUTES "assigned_to" = none from rfl]
            simp)))
        · exact Or.inr (Or.inr (Or.inr (by
            rw [show dget Bug.ATTRIBUTES "cc" = none from rfl]
            simp)))
        · exact Or.inr (Or.inr (Or.inr
            (ne_some_of_truthy _ w (Value.vlist []) htr rfl rfl)))
        · exact Or.inr (Or.inr (Or.inr
            (ne_some_of_truthy _ w (Value.vlist []) htr rfl rfl)))
        · exact Or.inr (Or.inr (Or.inr (by
            rw [show dget Bug.ATTRIBUTES "qa_contact" = none from rfl]
            simp)))
        · exact Or.inr (Or.inr (Or.inr
            (ne_some_of_truthy _ w (Value.vstr "") htr rfl rfl)))
        · exact Or.inr (Or.inr (Or.inr
            (ne_some_of_truthy _ w (Value.vstr "") htr rfl rfl)))
        · exact Or.inr (Or.inr (Or.inr
            (ne_some_of_truthy _ w (Value.vstr "") htr rfl rfl)))
  · intro kv hmem v'
    refine Or.inr (Or.inl ?_)
    have := List.mem_filter.mp hmem
    simpa using this.2

set_option maxRecDepth 10000 in
/-- Witness for the amended C2: in the projection of the concrete valid bug,
the key `product` is mandatory (first disjunct of the amended property), and
the mandatory field `product` comes out carrying the bug's own value
`"p"`. -/
theorem c2_add_json_nondefault_amended_witness :
    ((["product", "component", "summary", "version"].contains "product") = true ∨
     startsWithCf "product" = true ∨ "product" = "flags" ∨
     dget Bug.ATTRIBUTES "product" ≠ some (Value.vstr "p")) ∧
    dget [("product", Value.vstr "p"), ("component", Value.vstr "c"),
          ("summary", Value.vstr "s"), ("version", Value.vstr "v"),
          ("flags", Value.vlist [])] "product" = some (Value.vstr "p") := by
  have T := c2_add_json_nondefault_amended (construct Bug.ATTRIBUTES
      [("product", Value.vstr "p"), ("component", Value.vstr "c"),
       ("summary", Value.vstr "s"), ("version", Value.vstr "v")])
    [("product", Value.vstr "p"), ("component", Value.vstr "c"),
     ("summary", Value.vstr "s"), ("version", Value.vstr "v"),
     ("flags", Value.vlist [])]
    rfl rfl
  refine ⟨T.1 "product" (Value.vstr "p") rfl, ?_⟩
  obtain ⟨v, hv, htr, hj⟩ := T.2 "product" (by decide)
  rw [show Bug.getitem (construct Bug.ATTRIBUTES
      [("product", Value.vstr "p"), ("component", Value.vstr "c"),
       ("summary", Value.vstr "s"), ("version", Value.vstr "v")]) "product" =
      some (Value.vstr "p") from rfl] at hv
  injection hv with hv'
  subst hv'
  exact hj

/-! ## Claim C4: the update projections -/

theorem hasKey_dictUpdate_left (other : Dict) :
    ∀ (d : Dict) (k : String), hasKey d k = true →
      hasKey (dictUpdate d other) k = true := by
  induction other with
  | nil => intro d k h; exact h
  | cons kv rest ih =>
    intro d k h
    cases kv with
    | mk k0 w0 =>
      exact ih (dset d k0 w0) k (hasKey_dset_mono d k k0 w0 h)

theorem hasKey_dictUpdate_right (other : Dict) :
    ∀ (d : Dict) (k : String), (keysOf other).contains k = true →
      hasKey (dictUpdate d other) k = true := by
  induction other with
  | nil => intro d k h; simp [keysOf] at h
  | cons kv rest ih =>
    intro d k h
    cases kv with
    | mk k0 w0 =>
      by_cases hk : k = k0
      · subst hk
        exact hasKey_dictUpdate_left rest (dset d k w0) k (hasKey_dset_self d k w0)
      · have : (keysOf rest).contains k = true := by
          have hbeq : (k == k0) = false := by simp [hk]
          simpa [keysOf, List.contains_cons, hbeq] using h
        exact ih (dset d k0 w0) k this

/-- Claim C4 is false on the code: `FlagType.update_json` (which delegates to
`add_json`) emits `grant_group` and the renamed `sortkey` only when those
fields are truthy, so a flag type holding the schema defaults omits them,
while a flag type holding a group and a nonzero sort key emits them — the
updatable-field subset is therefore not projected regardless of
default-ness, and no custom fields are merged for this kind. -/
theorem c4_flagtype_update_json_counterexample :
    FlagType.update_json (construct FlagType.ATTRIBUTES []) =
      some [("name", Value.vstr ""), ("description", Value.vstr ""),
            ("is_active", Value.vbool true), ("is_requestable", Value.vbool true),
            ("cc_list", Value.vlist []), ("is_multiplicable", Value.vbool true)] ∧
    hasKey [("name", Value.vstr ""), ("description", Value.vstr ""),
            ("is_active", Value.vbool true), ("is_requestable", Value.vbool true),
            ("cc_list", Value.vlist []), ("is_multiplicable", Value.vbool true)]
      "grant_group" = false ∧
    hasKey [("name", Value.vstr ""), ("description", Value.vstr ""),
            ("is_active", Value.vbool true), ("is_requestable", Value.vbool true),
            ("cc_list", Value.vlist []), ("is_multiplicable", Value.vbool true)]
      "sortkey" = false ∧
    FlagType.update_json (construct FlagType.ATTRIBUTES
        [("grant_group", Value.vstr "g"), ("sort_key", Value.vint 5)]) =
      some [("name", Value.vstr ""), ("description", Value.vstr ""),
            ("is_active", Value.vbool true), ("is_requestable", Value.vbool true),
            ("cc_list", Value.vlist []), ("is_multiplicable", Value.vbool true),
            ("grant_group", Value.vstr "g"), ("sortkey", Value.vint 5)] ∧
    dget FlagType.ATTRIBUTES "grant_group" = some Value.vnull ∧
    dget FlagType.ATTRIBUTES "sort_key" = some (Value.vint 0) :=
  ⟨rfl, rfl, rfl, rfl, rfl, rfl⟩
theorem contains_append_elim (l1 l2 : List String) (k : String)
    (h : ((l1 ++ l2).contains k) = true) :
    l1.contains k = true ∨ l2.contains k = true := by
  induction l1 with
  | nil => exact Or.inr h
  | cons a as ih =>
    rw [List.cons_append, List.contains_cons] at h
    rcases Bool.or_eq_true_iff.mp h with h' | h'
    · left
      rw [List.contains_cons, h']
      rfl
    · rcases ih h' with h2 | h2
      · left
        rw [List.contains_cons, h2]
        simp
      · exact Or.inr h2

theorem hasKey_of_mem (d : Dict) (kv : String × Value) (h : kv ∈ d) :
    hasKey d kv.1 = true := by
  induction d with
  | nil => cases h
  | cons kv0 rest ih =>
    cases kv0 with
    | mk k0 w0 =>
      by_cases hk : k0 = kv.1
      · simp [hasKey, dget, hk]
      · rcases List.mem_cons.mp h with h' | h'
        · rw [h'] at hk
          simp at hk
        · have := ih h'
          simpa [hasKey, dget, hk] using this

/-- Claim C4 (amended): for Bug, Product, Component, Attachment, User and
Group, `update_json` emits every field of the kind's updatable subset
unconditionally, regardless of whether the value equals the schema default;
custom (`cf_`) fields are merged only by `Bug.update_json`; `FlagType` is
the exception: its `update_json` is `add_json`, whose `grant_group`,
`request_group` and `sortkey` entries are value-dependent. -/
theorem c4_update_json_full_subset_amended :
    (∀ b j : Dict, Bug.update_json b = some j →
      (∀ k : String, ((Bug.updateFields ++ ["deadline"]).contains k) = true →
        hasKey j k = true) ∧
      (∀ kv : String × Value, kv ∈ b → startsWithCf kv.1 = true →
        hasKey j kv.1 = true)) ∧
    (∀ p j : Dict, Product.update_json p = some j →
      ∀ k : String, (["name", "default_milestone", "description",
        "has_unconfirmed"].contains k) = true → hasKey j k = true) ∧
    (∀ c j : Dict, Component.update_json c = some j →
      ∀ k : String, (["name", "description", "default_qa_contact",
        "default_assignee"].contains k) = true → hasKey j k = true) ∧
    (∀ a j : Dict, Attachment.update_json a = some j →
      ∀ k : String, (["file_name", "summary", "content_type", "is_patch",
        "is_private", "is_obsolete", "flags"].contains k) = true →
        hasKey j k = true) ∧
    (∀ u j : Dict, User.update_json u = some j →
      ∀ k : String, (["email", "email_enabled", "login_denied_text",
        "full_name"].contains k) = true → hasKey j k = true) ∧
    (∀ g j : Dict, Group.update_json g = some j →
      ∀ k : String, (["name", "description", "user_regexp",
        "is_active"].contains k) = true → hasKey j k = true) ∧
    (∀ ft : Dict, FlagType.update_json ft = FlagType.add_json ft) := by
  refine ⟨?_, ?_, ?_, ?_, ?_, ?_, fun ft => rfl⟩
  · intro b j h
    simp only [Bug.update_json, Option.bind_eq_bind, Option.bind_eq_some,
      Option.some.injEq] at h
    obtain ⟨dct0, hloop, dl, hdl, enc, henc, hj⟩ := h
    subst hj
    constructor
    · intro k hk
      rcases contains_append_elim _ _ _ hk with hk | hk
      · refine hasKey_dictUpdate_left _ _ _ (hasKey_dset_mono _ _ _ _ ?_)
        exact updFieldsLoop_mem (Bug.getitem b) Bug.updateFields [] dct0 hloop k
          (Or.inl hk)
      · have hkd : k = "deadline" := by simpa using hk
        subst hkd
        exact hasKey_dictUpdate_left _ _ _ (hasKey_dset_self _ _ _)
    · intro kv hmem hcf
      refine hasKey_dictUpdate_right (Bug.get_custom_fields b) _ _ ?_
      have hm : kv ∈ Bug.get_custom_fields b := by
        simp only [Bug.get_custom_fields, List.mem_filter]
        exact ⟨hmem, hcf⟩
      rw [← hasKey_eq_contains]
      exact hasKey_of_mem _ kv hm
  · intro p j h
    intro k hk
    exact updFieldsLoop_mem (dget p) _ [] j h k (Or.inl hk)
  · intro c j h
    simp only [Component.update_json, Option.bind_eq_bind, Option.bind_eq_some,
      Option.some.injEq] at h
    obtain ⟨dct0, hloop, da, hda, hj⟩ := h
    subst hj
    intro k hk
    by_cases hkd : k = "default_assignee"
    · subst hkd
      exact hasKey_dset_self _ _ _
    · have hk3 : (["name", "description", "default_qa_contact"].contains k) = true := by
        simp only [List.contains_cons, List.contains_nil] at hk ⊢
        simp only [Bool.or_eq_true, beq_iff_eq, Bool.false_eq_true, or_false] at hk ⊢
        rcases hk with h | h | h | h
        · exact Or.inl h
        · exact Or.inr (Or.inl h)
        · exact Or.inr (Or.inr h)
        · exact absurd h hkd
      exact hasKey_dset_mono _ _ _ _
        (updFieldsLoop_mem (dget c) _ [] dct0 hloop k (Or.inl hk3))
  · intro a j h
    simp only [Attachment.update_json, Option.bind_eq_bind, Option.bind_eq_some,
      Option.some.injEq] at h
    obtain ⟨dct0, hloop, fv, hfv, fl, hfl, hj⟩ := h
    subst hj
    intro k hk
    by_cases hkd : k = "flags"
    · subst hkd
      exact hasKey_dset_self _ _ _
    · have hk6 : (["file_name", "summary", "content_type", "is_patch",
          "is_private", "is_obsolete"].contains k) = true := by
        simp only [List.contains_cons, List.contains_nil] at hk ⊢
        simp only [Bool.or_eq_true, beq_iff_eq, Bool.false_eq_true, or_false] at hk ⊢
        rcases hk with h | h | h | h | h | h | h <;>
          first
            | exact absurd h hkd
            | simp [h]
      exact hasKey_dset_mono _ _ _ _
        (updFieldsLoop_mem (Attachment.getitem a) _ [] dct0 hloop k (Or.inl hk6))
  · intro u j h
    simp only [User.update_json, Option.bind_eq_bind, Option.bind_eq_some,
      Option.some.injEq] at h
    obtain ⟨dct0, hloop, rn, hrn, hj⟩ := h
    subst hj
    intro k hk
    by_cases hkd : k = "full_name"
    · subst hkd
      exact hasKey_dset_self _ _ _
    · have hk3 : (["email", "email_enabled", "login_denied_text"].contains k) = true := by
        simp only [List.contains_cons, List.contains_nil] at hk ⊢
        simp only [Bool.or_eq_true, beq_iff_eq, Bool.false_eq_true, or_false] at hk ⊢
        rcases hk with h | h | h | h
        · exact Or.inl h
        · exact Or.inr (Or.inl h)
        · exact Or.inr (Or.inr h)
        · exact absurd h hkd
      exact hasKey_dset_mono _ _ _ _
        (updFieldsLoop_mem (dget u) _ [] dct0 hloop k (Or.inl hk3))
  · intro g j h
    intro k hk
    exact updFieldsLoop_mem (dget g) _ [] j h k (Or.inl hk)

set_option maxRecDepth 10000 in
/-- Witness for the amended C4: the update projection of a fully default bug
still carries `summary` and `deadline`. -/
theorem c4_update_json_full_subset_amended_witness :
    hasKey [("assigned_to", Value.vnull), ("is_cc_accessible", Value.vbool false),
      ("op_sys", Value.vstr ""), ("platform", Value.vstr ""),
      ("priority", Value.vstr ""), ("qa_contact", Value.vnull),
      ("is_creator_accessible", Value.vbool false), ("resolution", Value.vstr ""),
      ("severity", Value.vstr ""), ("status", Value.vstr ""),
      ("summary", Value.vstr ""), ("url", Value.vstr ""),
      ("version", Value.vstr ""), ("whiteboard", Value.vstr ""),
      ("deadline", Value.vnull)] "summary" = true ∧
    hasKey [("assigned_to", Value.vnull), ("is_cc_accessible", Value.vbool false),
      ("op_sys", Value.vstr ""), ("platform", Value.vstr ""),
      ("priority", Value.vstr ""), ("qa_contact", Value.vnull),
      ("is_creator_accessible", Value.vbool false), ("resolution", Value.vstr ""),
      ("severity", Value.vstr ""), ("status", Value.vstr ""),
      ("summary", Value.vstr ""), ("url", Value.vstr ""),
      ("version", Value.vstr ""), ("whiteboard", Value.vstr ""),
      ("deadline", Value.vnull)] "deadline" = true :=
  ⟨(c4_update_json_full_subset_amended.1 (construct Bug.ATTRIBUTES []) _ rfl).1
      "summary" rfl,
   (c4_update_json_full_subset_amended.1 (construct Bug.ATTRIBUTES []) _ rfl).1
      "deadline" rfl⟩

/-! ## Claim C9: the precondition gates of the write endpoints -/

set_option maxRecDepth 10000 in
/-- Claim C9 is false as stated, in three ways.  (1) The raised
`BugzillaException` does not name the missing required field(s): a bug
missing only `product` is rejected with the generic message `This bug does
not have the required fields set`, which does not contain the substring
`product` (and is the same message whatever field is missing).  (2) The
universal over every create/update endpoint fails: `update_component` has no
`can_be_updated` gate at all, so a fresh component whose predicate is false
still has its PUT payload built and handed to the transport, and no
exception is raised.  (3) `update_flag_type`'s gate message names the wrong
kind (`product`). -/
theorem c9_precondition_message_counterexample :
    Bugzilla.add_bug (construct Bug.ATTRIBUTES
      [("component", Value.vstr "c"), ("summary", Value.vstr "s"),
       ("version", Value.vstr "v")]) =
      some (.error ⟨-1, "This bug does not have the required fields set"⟩) ∧
    Bugzilla.add_bug_requests (construct Bug.ATTRIBUTES
      [("component", Value.vstr "c"), ("summary", Value.vstr "s"),
       ("version", Value.vstr "v")]) = [] ∧
    containsSub "product".data
      "This bug does not have the required fields set".data = false ∧
    Component.can_be_updated (construct Component.ATTRIBUTES []) = some false ∧
    Bugzilla.update_component (construct Component.ATTRIBUTES []) =
      some (.ok [("name", Value.vstr ""), ("description", Value.vstr ""),
        ("default_qa_contact", Value.vstr ""), ("default_assignee", Value.vstr ""),
        ("ids", Value.vint (-1))]) ∧
    requestsOf (Bugzilla.update_component (construct Component.ATTRIBUTES [])) =
      [[("name", Value.vstr ""), ("description", Value.vstr ""),
        ("default_qa_contact", Value.vstr ""), ("default_assignee", Value.vstr ""),
        ("ids", Value.vint (-1))]] ∧
    FlagType.can_be_updated (construct FlagType.ATTRIBUTES []) = some false ∧
    Bugzilla.update_flag_type (construct FlagType.ATTRIBUTES []) [] =
      some (.error ⟨-1, "This product does not have the required fields set"⟩) ∧
    containsSub "product".data
      "This product does not have the required fields set".data = true :=
  ⟨rfl, rfl, rfl, rfl, rfl, rfl, rfl, rfl, rfl⟩

/-- Claim C9 (amended): of the create/update endpoint operations, all EXCEPT
`update_component` check the entity's validity predicate; when it is false
they raise a `BugzillaException` (code `-1`, with a generic per-operation
message that does not name the individual missing fields, and that for
`update_flag_type` even names the wrong kind) before any network request is
issued: no request payload is handed to the transport.  `update_component`
builds and issues its payload with no gate at all (see the
counterexample). -/
theorem c9_precondition_gate_amended :
    (∀ b : Dict, Bug.can_be_added b = some false →
      Bugzilla.add_bug b =
        some (.error ⟨-1, "This bug does not have the required fields set"⟩) ∧
      Bugzilla.add_bug_requests b = []) ∧
    (∀ (a : Dict) (ids : List Int) (comment : String),
      Attachment.can_be_added a = some false →
      Bugzilla.add_attachment a ids comment =
        some (.error ⟨-1, "This attachment does not have the required fields set"⟩) ∧
      Bugzilla.add_attachment_requests a ids comment = []) ∧
    (∀ u : Dict, User.can_be_added u = some false →
      Bugzilla.add_user u =
        some (.error ⟨-1, "This user does not have the required fields set"⟩) ∧
      Bugzilla.add_user_requests u = []) ∧
    (∀ (b : Dict) (ids : List Int), Bug.can_be_updated b = some false →
      Bugzilla.update_bug b ids =
        some (.error ⟨-1, "This bug does not have the required fields set"⟩) ∧
      Bugzilla.update_bug_requests b ids = []) ∧
    (∀ c : Dict, Comment.can_be_added c = some false →
      Bugzilla.add_comment c =
        some (.error ⟨-1, "This comment does not have the required fields set"⟩) ∧
      requestsOf (Bugzilla.add_comment c) = []) ∧
    (∀ (c : Dict) (product : String), Component.can_be_added c = some false →
      Bugzilla.add_component c product =
        some (.error ⟨-1, "This component does not have the required fields set"⟩) ∧
      requestsOf (Bugzilla.add_component c product) = []) ∧
    (∀ g : Dict, Group.can_be_added g = some false →
      Bugzilla.add_group g =
        some (.error ⟨-1, "This group does not have the required fields set"⟩) ∧
      requestsOf (Bugzilla.add_group g) = []) ∧
    (∀ p : Dict, Product.can_be_added p = some false →
      Bugzilla.add_product p =
        some (.error ⟨-1, "This product does not have the required fields set"⟩) ∧
      requestsOf (Bugzilla.add_product p) = []) ∧
    (∀ (ft : Dict) (targetType : String), FlagType.can_be_added ft = some false →
      Bugzilla.add_flag_type ft targetType =
        some (.error ⟨-1, "This FlagType does not have the required fields set"⟩) ∧
      requestsOf (Bugzilla.add_flag_type ft targetType) = []) ∧
    (∀ (a : Dict) (ids : List Int) (comment : String),
      Attachment.can_be_updated a = some false →
      Bugzilla.update_attachment a ids comment =
        some (.error ⟨-1, "This attachment does not have the required fields set"⟩) ∧
      requestsOf (Bugzilla.update_attachment a ids comment) = []) ∧
    (∀ (u : Dict) (ids : List Int), User.can_be_updated u = some false →
      Bugzilla.update_user u ids =
        some (.error ⟨-1, "This user does not have the required fields set"⟩) ∧
      requestsOf (Bugzilla.update_user u ids) = []) ∧
    (∀ (g : Dict) (ids : List Int), Group.can_be_updated g = some false →
      Bugzilla.update_group g ids =
        some (.error ⟨-1, "This group does not have the required fields set"⟩) ∧
      requestsOf (Bugzilla.update_group g ids) = []) ∧
    (∀ (p : Dict) (ids : List Int), Product.can_be_updated p = some false →
      Bugzilla.update_product p ids =
        some (.error ⟨-1, "This product does not have the required fields set"⟩) ∧
      requestsOf (Bugzilla.update_product p ids) = []) ∧
    (∀ (ft : Dict) (ids : List Int), FlagType.can_be_updated ft = some false →
      Bugzilla.update_flag_type ft ids =
        some (.error ⟨-1, "This product does not have the required fields set"⟩) ∧
      requestsOf (Bugzilla.update_flag_type ft ids) = []) := by
  refine ⟨?_, ?_, ?_, ?_, ?_, ?_, ?_, ?_, ?_, ?_, ?_, ?_, ?_, ?_⟩
  · intro b h
    constructor
    · simp [Bugzilla.add_bug, h]
    · simp [Bugzilla.add_bug_requests, Bugzilla.add_bug, h]
  · intro a ids comment h
    constructor
    · simp [Bugzilla.add_attachment, h]
    · simp [Bugzilla.add_attachment_requests, Bugzilla.add_attachment, h]
  · intro u h
    constructor
    · simp [Bugzilla.add_user, h]
    · simp [Bugzilla.add_user_requests, Bugzilla.add_user, h]
  · intro b ids h
    constructor
    · simp [Bugzilla.update_bug, h]
    · simp [Bugzilla.update_bug_requests, Bugzilla.update_bug, h]
  · intro c h
    constructor
    · simp [Bugzilla.add_comment, h]
    · simp [requestsOf, Bugzilla.add_comment, h]
  · intro c product h
    constructor
    · simp [Bugzilla.add_component, h]
    · simp [requestsOf, Bugzilla.add_component, h]
  · intro g h
    constructor
    · simp [Bugzilla.add_group, h]
    · simp [requestsOf, Bugzilla.add_group, h]
  · intro p h
    constructor
    · simp [Bugzilla.add_product, h]
    · simp [requestsOf, Bugzilla.add_product, h]
  · intro ft targetType h
    constructor
    · simp [Bugzilla.add_flag_type, h]
    · simp [requestsOf, Bugzilla.add_flag_type, h]
  · intro a ids comment h
    constructor
    · simp [Bugzilla.update_attachment, h]
    · simp [requestsOf, Bugzilla.update_attachment, h]
  · intro u ids h
    constructor
    · simp [Bugzilla.update_user, h]
    · simp [requestsOf, Bugzilla.update_user, h]
  · intro g ids h
    constructor
    · simp [Bugzilla.update_group, h]
    · simp [requestsOf, Bugzilla.update_group, h]
  · intro p ids h
    constructor
    · simp [Bugzilla.update_product, h]
    · simp [requestsOf, Bugzilla.update_product, h]
  · intro ft ids h
    constructor
    · simp [Bugzilla.update_flag_type, h]
    · simp [requestsOf, Bugzilla.update_flag_type, h]

set_option maxRecDepth 10000 in
/-- Witness for the amended C9: a fully default bug fails the predicate, so
`add_bug` raises and no request is issued. -/
theorem c9_precondition_gate_amended_witness :
    Bugzilla.add_bug (construct Bug.ATTRIBUTES []) =
      some (.error ⟨-1, "This bug does not have the required fields set"⟩) ∧
    Bugzilla.add_bug_requests (construct Bug.ATTRIBUTES []) = [] :=
  c9_precondition_gate_amended.1 (construct Bug.ATTRIBUTES []) rfl

/-! ## Nodup preservation lemmas for the proxy -/

theorem contains_append_eq (l1 l2 : List String) (x : String) :
    ((l1 ++ l2).contains x) = (l1.contains x || l2.contains x) := by
  induction l1 with
  | nil => simp
  | cons a as ih =>
    rw [List.cons_append, List.contains_cons, List.contains_cons, ih]
    cases x == a <;> simp

theorem nodupStr_append_single (l : List String) (k : String)
    (h : nodupStr l = true) (hc : l.contains k = false) :
    nodupStr (l ++ [k]) = true := by
  induction l with
  | nil => simp [nodupStr]
  | cons a as ih =>
    simp only [nodupStr, Bool.and_eq_true, Bool.not_eq_true'] at h
    simp only [List.contains_cons, Bool.or_eq_false_iff] at hc
    simp only [List.cons_append, nodupStr, Bool.and_eq_true, Bool.not_eq_true']
    constructor
    · have hgoal : ((as ++ [k]).contains a) = false := by
        rw [contains_append_eq, h.1, List.contains_cons, List.contains_nil]
        have : (a == k) = false := by
          have := hc.1
          simp only [beq_eq_false_iff_ne] at this ⊢
          exact fun hh => this hh.symm
        simp [this]
      exact hgoal
    · exact ih h.2 hc.2

theorem keysOf_dset (d : Dict) (k : String) (v : Value) :
    keysOf (dset d k v) =
      if hasKey d k = true then keysOf d else keysOf d ++ [k] := by
  induction d with
  | nil => simp [dset, keysOf, hasKey, dget]
  | cons kv rest ih =>
    cases kv with
    | mk k0 w =>
      by_cases h0 : k0 = k
      · subst h0
        simp [dset, keysOf, hasKey, dget]
      · have hne : hasKey ((k0, w) :: rest) k = hasKey rest k := by
          simp [hasKey, dget, h0]
        rw [hne]
        simp only [dset, if_neg h0, keysOf, List.map_cons]
        rw [show List.map Prod.fst (dset rest k v) = keysOf (dset rest k v) from rfl, ih]
        by_cases h2 : hasKey rest k = true
        · simp [h2, keysOf]
        · simp only [Bool.not_eq_true] at h2
          simp [h2, keysOf]

theorem nodupStr_contains_mono_dset (d : Dict) (k k0 : String) (v : Value)
    (h : (keysOf (dset d k v)).contains k0 = true) :
    (keysOf d).contains k0 = true ∨ k0 = k := by
  rw [keysOf_dset] at h
  by_cases h2 : hasKey d k = true
  · rw [if_pos h2] at h
    exact Or.inl h
  · simp only [Bool.not_eq_true] at h2
    rw [if_neg (by simp [h2])] at h
    rw [contains_append_eq] at h
    rcases Bool.or_eq_true_iff.mp h with h' | h'
    · exact Or.inl h'
    · right
      simpa using h'

theorem nodupStr_dset (d : Dict) (k : String) (v : Value)
    (h : nodupStr (keysOf d) = true) : nodupStr (keysOf (dset d k v)) = true := by
  rw [keysOf_dset]
  by_cases h2 : hasKey d k = true
  · simpa [h2] using h
  · simp only [Bool.not_eq_true] at h2
    rw [if_neg (by simp [h2])]
    refine nodupStr_append_single (keysOf d) k h ?_
    rw [← hasKey_eq_contains]
    exact h2

theorem nodupStr_dictUpdate (other : Dict) :
    ∀ d : Dict, nodupStr (keysOf d) = true →
      nodupStr (keysOf (dictUpdate d other)) = true := by
  induction other with
  | nil => intro d h; exact h
  | cons kv rest ih =>
    intro d h
    cases kv with
    | mk k0 w0 =>
      exact ih (dset d k0 w0) (nodupStr_dset d k0 w0 h)

theorem contains_keysOf_ddel (d : Dict) (k k0 : String)
    (h : (keysOf (ddel d k)).contains k0 = true) :
    (keysOf d).contains k0 = true := by
  induction d with
  | nil => simpa [ddel] using h
  | cons kv rest ih =>
    cases kv with
    | mk k1 w =>
      by_cases h1 : k1 = k
      · subst h1
        rw [show ddel ((k1, w) :: rest) k1 = rest from by simp [ddel]] at h
        simp only [keysOf, List.map_cons, List.contains_cons]
        rw [show (List.map Prod.fst rest).contains k0 = (keysOf rest).contains k0
          from rfl, h]
        simp
      · simp only [ddel, if_neg h1, keysOf, List.map_cons, List.contains_cons] at h ⊢
        rcases Bool.or_eq_true_iff.mp h with h' | h'
        · rw [h']
          rfl
        · have := ih (by simpa [keysOf] using h')
          simp only [keysOf] at this
          rw [this]
          simp

theorem nodupStr_ddel (d : Dict) (k : String)
    (h : nodupStr (keysOf d) = true) : nodupStr (keysOf (ddel d k)) = true := by
  induction d with
  | nil => simp [ddel, keysOf, nodupStr]
  | cons kv rest ih =>
    cases kv with
    | mk k1 w =>
      simp only [keysOf, List.map_cons, nodupStr, Bool.and_eq_true,
        Bool.not_eq_true'] at h
      by_cases h1 : k1 = k
      · subst h1
        simpa [ddel, keysOf] using h.2
      · simp only [ddel, if_neg h1, keysOf, List.map_cons, nodupStr,
          Bool.and_eq_true, Bool.not_eq_true']
        refine ⟨?_, by simpa [keysOf] using ih h.2⟩
        cases hc : (List.map Prod.fst (ddel rest k)).contains k1 with
        | false => rfl
        | true =>
          have := contains_keysOf_ddel rest k k1 (by simpa [keysOf] using hc)
          simp only [keysOf] at this
          rw [this] at h
          cases h.1

theorem dget_dictUpdate_of_nodup (other : Dict) :
    ∀ (d : Dict) (k : String), nodupStr (keysOf other) = true →
      dget (dictUpdate d other) k = oOr (dget other k) (dget d k) := by
  induction other with
  | nil =>
    intro d k _
    show dget d k = oOr (dget [] k) (dget d k)
    cases dget d k <;> rfl
  | cons kv rest ih =>
    intro d k h
    cases kv with
    | mk k0 w0 =>
      simp only [keysOf, List.map_cons, nodupStr, Bool.and_eq_true,
        Bool.not_eq_true'] at h
      have hstep : dictUpdate d ((k0, w0) :: rest) = dictUpdate (dset d k0 w0) rest :=
        rfl
      rw [hstep, ih (dset d k0 w0) k (by simpa [keysOf] using h.2)]
      by_cases hk : k = k0
      · subst hk
        have hrest : dget rest k = none := by
          rw [← hasKey_false_iff, hasKey_eq_contains]
          simpa [keysOf] using h.1
        rw [hrest, dget_dset_self]
        simp [dget, oOr]
      · rw [dget_dset_ne d k0 k w0 hk]
        have hne : ¬(k0 = k) := fun hh => hk hh.symm
        have : dget ((k0, w0) :: rest) k = dget rest k := by
          simp [dget, hne]
        rw [this]

/-! ## Claims C7 and C8: the lazy proxy -/

theorem proxyMerged_fields (seed : Dict) (cls : String) (od : Dict)
    (hseed : nodupStr (keysOf seed) = true) (hod : nodupStr (keysOf od) = true)
    (hbl : hasKey od "loader" = false) (hbr : hasKey od "real_class" = false)
    (hbm : hasKey od "load_on_missing_key" = false)
    (hsub : ∀ k, hasKey seed k = true → hasKey od k = true) :
    ∀ k, dget (proxyMerged seed cls od) k = dget od k := by
  intro k
  have hd0 : nodupStr (keysOf (LazyBugzillaObject.init seed cls)) = true :=
    nodupStr_dset _ _ _ (nodupStr_dset _ _ _ (nodupStr_dset _ _ _ hseed))
  have hX : nodupStr (keysOf (dictUpdate (LazyBugzillaObject.init seed cls) od))
      = true := nodupStr_dictUpdate od _ hd0
  by_cases hk1 : k = "load_on_missing_key"
  · subst hk1
    rw [show proxyMerged seed cls od =
      ddel (ddel (ddel (dictUpdate (LazyBugzillaObject.init seed cls) od) "loader")
        "real_class") "load_on_missing_key" from rfl]
    rw [dget_ddel_self_of_nodup _ _ (nodupStr_ddel _ _ (nodupStr_ddel _ _ hX))]
    exact ((hasKey_false_iff od _).mp hbm).symm
  · by_cases hk2 : k = "real_class"
    · subst hk2
      rw [show proxyMerged seed cls od =
        ddel (ddel (ddel (dictUpdate (LazyBugzillaObject.init seed cls) od) "loader")
          "real_class") "load_on_missing_key" from rfl]
      rw [dget_ddel_ne _ _ _ hk1,
        dget_ddel_self_of_nodup _ _ (nodupStr_ddel _ _ hX)]
      exact ((hasKey_false_iff od _).mp hbr).symm
    · by_cases hk3 : k = "loader"
      · subst hk3
        rw [show proxyMerged seed cls od =
          ddel (ddel (ddel (dictUpdate (LazyBugzillaObject.init seed cls) od)
            "loader") "real_class") "load_on_missing_key" from rfl]
        rw [dget_ddel_ne _ _ _ hk1, dget_ddel_ne _ _ _ hk2,
          dget_ddel_self_of_nodup _ _ hX]
        exact ((hasKey_false_iff od _).mp hbl).symm
      · rw [show proxyMerged seed cls od =
          ddel (ddel (ddel (dictUpdate (LazyBugzillaObject.init seed cls) od)
            "loader") "real_class") "load_on_missing_key" from rfl]
        rw [dget_ddel_ne _ _ _ hk1, dget_ddel_ne _ _ _ hk2, dget_ddel_ne _ _ _ hk3]
        rw [dget_dictUpdate_of_nodup od _ k hod]
        cases hodk : dget od k with
        | some w => rfl
        | none =>
          have hseedk : dget seed k = none := by
            rw [← hasKey_false_iff]
            cases hs : hasKey seed k with
            | false => rfl
            | true =>
              have := hsub k hs
              rw [(hasKey_false_iff od k).mpr hodk] at this
              cases this
          show oOr none (dget (LazyBugzillaObject.init seed cls) k) = none
          rw [show LazyBugzillaObject.init seed cls =
            dset (dset (dset seed "loader" (.vref 0)) "real_class" (.vstr cls))
              "load_on_missing_key" (.vbool true) from rfl]
          rw [dget_dset_ne _ _ _ _ hk1, dget_dset_ne _ _ _ _ hk2,
            dget_dset_ne _ _ _ _ hk3, hseedk]
          rfl

theorem getitem_load_success (L : Loader) (seed : Dict) (cls : String) (od : Dict)
    (n : Nat) (f : String) (v : Value)
    (hres : L.results n = some (cls, od))
    (hf : hasKey (LazyBugzillaObject.init seed cls) f = false)
    (hodf : dget od f = some v)
    (hmerge : ∀ k, dget (proxyMerged seed cls od) k = dget od k) :
    LazyBugzillaObject.getitem L (.unloaded (LazyBugzillaObject.init seed cls), n) f
      = ((.loaded cls (proxyMerged seed cls od), n + 1), .ok v) := by
  have h1 : dget (LazyBugzillaObject.init seed cls) f = none :=
    (hasKey_false_iff _ _).mp hf
  have h2 : dget (LazyBugzillaObject.init seed cls) "load_on_missing_key"
      = some (.vbool true) := dget_dset_self _ _ _
  have h3 : dget (LazyBugzillaObject.init seed cls) "real_class"
      = some (.vstr cls) := by
    show dget (dset (dset (dset seed "loader" (.vref 0)) "real_class" (.vstr cls))
      "load_on_missing_key" (.vbool true)) "real_class" = some (.vstr cls)
    rw [dget_dset_ne _ _ _ _ (by decide), dget_dset_self]
  have h4 : LazyBugzillaObject.load L n (LazyBugzillaObject.init seed cls)
      = (n + 1, .ok (cls, proxyMerged seed cls od)) := by
    unfold LazyBugzillaObject.load
    rw [hres]
    dsimp only
    rw [h3]
    dsimp only
    rw [if_pos rfl]
    rfl
  have h5 : dget (proxyMerged seed cls od) f = some v := by rw [hmerge f, hodf]
  simp only [LazyBugzillaObject.getitem]
  rw [h1]
  dsimp only
  rw [h2]
  dsimp only
  rw [if_pos (show pyTruthy (.vbool true) = true from rfl)]
  rw [h4]
  dsimp only
  rw [h5]

theorem runReads_loaded (L : Loader) (c : String) (d : Dict) (n : Nat) :
    ∀ ks : List String, runReads L (.loaded c d, n) ks = (.loaded c d, n) := by
  intro ks
  induction ks with
  | nil => rfl
  | cons k rest ih =>
    show runReads L ((LazyBugzillaObject.getitem L (.loaded c d, n) k).1) rest
      = (.loaded c d, n)
    rw [show (LazyBugzillaObject.getitem L (.loaded c d, n) k).1 = (.loaded c d, n)
      from rfl]
    exact ih

/-- Claim C7: a lazy proxy seeded without a field `f`, with loading enabled
(the constructor's default) and a loader whose first call returns an entity
of the expected class that covers the seed and carries `f`, answers the
first read of `f` by invoking the loader once (the invocation count goes
from 0 to 1), returns the loaded entity's value for `f`, and from then on is
field-for-field equal to the loaded entity with the three bookkeeping fields
gone; any sequence of subsequent reads leaves the object and the invocation
count unchanged, so the loader is never invoked again. -/
theorem c7_lazy_proxy_loads_once_and_converts :
    ∀ (seed od : Dict) (cls f : String) (L : Loader) (v : Value),
      L.results 0 = some (cls, od) →
      nodupStr (keysOf seed) = true → nodupStr (keysOf od) = true →
      hasKey (LazyBugzillaObject.init seed cls) f = false →
      dget od f = some v →
      hasKey od "loader" = false → hasKey od "real_class" = false →
      hasKey od "load_on_missing_key" = false →
      (∀ k, hasKey seed k = true → hasKey od k = true) →
      LazyBugzillaObject.getitem L
          (.unloaded (LazyBugzillaObject.init seed cls), 0) f
        = ((.loaded cls (proxyMerged seed cls od), 1), .ok v) ∧
      (∀ k, dget (proxyMerged seed cls od) k = dget od k) ∧
      hasKey (proxyMerged seed cls od) "loader" = false ∧
      hasKey (proxyMerged seed cls od) "real_class" = false ∧
      hasKey (proxyMerged seed cls od) "load_on_missing_key" = false ∧
      (∀ ks : List String,
        runReads L (.loaded cls (proxyMerged seed cls od), 1) ks
          = (.loaded cls (proxyMerged seed cls od), 1)) := by
  intro seed od cls f L v hres hseed hod hf hodf hbl hbr hbm hsub
  have hmerge := proxyMerged_fields seed cls od hseed hod hbl hbr hbm hsub
  refine ⟨getitem_load_success L seed cls od 0 f v hres hf hodf hmerge, hmerge,
    ?_, ?_, ?_, runReads_loaded L cls (proxyMerged seed cls od) 1⟩
  · rw [hasKey, hmerge "loader", ← hasKey]
    exact hbl
  · rw [hasKey, hmerge "real_class", ← hasKey]
    exact hbr
  · rw [hasKey, hmerge "load_on_missing_key", ← hasKey]
    exact hbm

set_option maxRecDepth 10000 in
/-- Witness for C7: a lazy user proxy seeded with only a name; the first
read of `email` loads the full user and returns its email. -/
theorem c7_lazy_proxy_loads_once_and_converts_witness :
    LazyBugzillaObject.getitem
      ⟨fun n => if n = 0
        then some ("User", construct User.ATTRIBUTES
          [("name", Value.vstr "alice"), ("email", Value.vstr "alice@example.org")])
        else none⟩
      (.unloaded (LazyBugzillaObject.init [("name", Value.vstr "alice")] "User"), 0)
      "email"
      = ((.loaded "User" (proxyMerged [("name", Value.vstr "alice")] "User"
          (construct User.ATTRIBUTES
            [("name", Value.vstr "alice"), ("email", Value.vstr "alice@example.org")])),
          1),
         .ok (.vstr "alice@example.org")) :=
  (c7_lazy_proxy_loads_once_and_converts [("name", Value.vstr "alice")]
    (construct User.ATTRIBUTES
      [("name", Value.vstr "alice"), ("email", Value.vstr "alice@example.org")])
    "User" "email"
    ⟨fun n => if n = 0
      then some ("User", construct User.ATTRIBUTES
        [("name", Value.vstr "alice"), ("email", Value.vstr "alice@example.org")])
      else none⟩
    (.vstr "alice@example.org") rfl rfl rfl rfl rfl rfl rfl rfl
    (by
      intro k hk
      by_cases h : "name" = k
      · cases h
        rfl
      · exfalso
        simp [hasKey, dget, h] at hk)).1

/-- Claim C8: when the load step fails — the loader raises, or returns an
object whose class is not the expected one — the triggering access returns
an error and the proxy object is exactly as before (still unloaded, with the
same dict of seed attributes and bookkeeping fields); only the external
invocation count has moved, so a later access retries the load and can
succeed. -/
theorem c8_lazy_proxy_failure_leaves_unloaded :
    ∀ (seed : Dict) (cls f : String) (L : Loader),
      hasKey (LazyBugzillaObject.init seed cls) f = false →
      (L.results 0 = none →
        LazyBugzillaObject.getitem L
            (.unloaded (LazyBugzillaObject.init seed cls), 0) f
          = ((.unloaded (LazyBugzillaObject.init seed cls), 1), .error ())) ∧
      (∀ (c2 : String) (od2 : Dict), L.results 0 = some (c2, od2) → c2 ≠ cls →
        LazyBugzillaObject.getitem L
            (.unloaded (LazyBugzillaObject.init seed cls), 0) f
          = ((.unloaded (LazyBugzillaObject.init seed cls), 1), .error ())) ∧
      (∀ (od : Dict) (v : Value), L.results 1 = some (cls, od) →
        nodupStr (keysOf seed) = true → nodupStr (keysOf od) = true →
        dget od f = some v →
        hasKey od "loader" = false → hasKey od "real_class" = false →
        hasKey od "load_on_missing_key" = false →
        (∀ k, hasKey seed k = true → hasKey od k = true) →
        LazyBugzillaObject.getitem L
            (.unloaded (LazyBugzillaObject.init seed cls), 1) f
          = ((.loaded cls (proxyMerged seed cls od), 2), .ok v)) := by
  intro seed cls f L hf
  have h1 : dget (LazyBugzillaObject.init seed cls) f = none :=
    (hasKey_false_iff _ _).mp hf
  have h2 : dget (LazyBugzillaObject.init seed cls) "load_on_missing_key"
      = some (.vbool true) := dget_dset_self _ _ _
  have h3 : dget (LazyBugzillaObject.init seed cls) "real_class"
      = some (.vstr cls) := by
    show dget (dset (dset (dset seed "loader" (.vref 0)) "real_class" (.vstr cls))
      "load_on_missing_key" (.vbool true)) "real_class" = some (.vstr cls)
    rw [dget_dset_ne _ _ _ _ (by decide), dget_dset_self]
  refine ⟨?_, ?_, ?_⟩
  · intro hres
    have h4 : LazyBugzillaObject.load L 0 (LazyBugzillaObject.init seed cls)
        = (1, .error ()) := by
      unfold LazyBugzillaObject.load
      rw [hres]
    simp only [LazyBugzillaObject.getitem]
    rw [h1]
    dsimp only
    rw [h2]
    dsimp only
    rw [if_pos (show pyTruthy (.vbool true) = true from rfl)]
    rw [h4]
  · intro c2 od2 hres hne
    have h4 : LazyBugzillaObject.load L 0 (LazyBugzillaObject.init seed cls)
        = (1, .error ()) := by
      unfold LazyBugzillaObject.load
      rw [hres]
      dsimp only
      rw [h3]
      dsimp only
      rw [if_neg hne]
    simp only [LazyBugzillaObject.getitem]
    rw [h1]
    dsimp only
    rw [h2]
    dsimp only
    rw [if_pos (show pyTruthy (.vbool true) = true from rfl)]
    rw [h4]
  · intro od v hres hseed hod hodf hbl hbr hbm hsub
    exact getitem_load_success L seed cls od 1 f v hres hf hodf
      (proxyMerged_fields seed cls od hseed hod hbl hbr hbm hsub)

set_option maxRecDepth 10000 in
/-- Witness for C8: a loader that raises on its first invocation and returns
the full user on the second; the first read of `email` errors and leaves the
proxy unloaded, the retry succeeds. -/
theorem c8_lazy_proxy_failure_leaves_unloaded_witness :
    LazyBugzillaObject.getitem
      ⟨fun n => if n = 0 then none
        else some ("User", construct User.ATTRIBUTES
          [("name", Value.vstr "alice"), ("email", Value.vstr "alice@example.org")])⟩
      (.unloaded (LazyBugzillaObject.init [("name", Value.vstr "alice")] "User"), 0)
      "email"
      = ((.unloaded (LazyBugzillaObject.init [("name", Value.vstr "alice")] "User"),
          1), .error ()) ∧
    LazyBugzillaObject.getitem
      ⟨fun n => if n = 0 then none
        else some ("User", construct User.ATTRIBUTES
          [("name", Value.vstr "alice"), ("email", Value.vstr "alice@example.org")])⟩
      (.unloaded (LazyBugzillaObject.init [("name", Value.vstr "alice")] "User"), 1)
      "email"
      = ((.loaded "User" (proxyMerged [("name", Value.vstr "alice")] "User"
          (construct User.ATTRIBUTES
            [("name", Value.vstr "alice"), ("email", Value.vstr "alice@example.org")])),
          2),
         .ok (.vstr "alice@example.org")) :=
  ⟨(c8_lazy_proxy_failure_leaves_unloaded [("name", Value.vstr "alice")] "User"
      "email"
      ⟨fun n => if n = 0 then none
        else some ("User", construct User.ATTRIBUTES
          [("name", Value.vstr "alice"), ("email", Value.vstr "alice@example.org")])⟩
      rfl).1 rfl,
   (c8_lazy_proxy_failure_leaves_unloaded [("name", Value.vstr "alice")] "User"
      "email"
      ⟨fun n => if n = 0 then none
        else some ("User", construct User.ATTRIBUTES
          [("name", Value.vstr "alice"), ("email", Value.vstr "alice@example.org")])⟩
      rfl).2.2
     (construct User.ATTRIBUTES
       [("name", Value.vstr "alice"), ("email", Value.vstr "alice@example.org")])
     (.vstr "alice@example.org") rfl rfl rfl rfl rfl rfl rfl
     (by
       intro k hk
       by_cases h : "name" = k
       · cases h
         rfl
       · exfalso
         simp [hasKey, dget, h] at hk)⟩

/-! ## Claim C5: codec round trips -/

theorem char_toNat_inj {a b : Char} (h : a.toNat = b.toNat) : a = b :=
  Char.ext (UInt32.ext h)

theorem isDig_dchar (d : Nat) : isDig (dchar d) = true := by
  match d with
  | 0 | 1 | 2 | 3 | 4 | 5 | 6 | 7 | 8 => rfl
  | n + 9 => rfl

theorem toNat_dchar (d : Nat) (h : d < 10) : (dchar d).toNat = 48 + d := by
  interval_cases d <;> rfl

theorem dval_dchar (d : Nat) (h : d < 10) : dval (dchar d) = d := by
  unfold dval
  rw [toNat_dchar d h]
  omega

theorem isDig_bounds {c : Char} (h : isDig c = true) :
    48 ≤ c.toNat ∧ c.toNat ≤ 57 := by
  simpa [isDig, Bool.and_eq_true, decide_eq_true_eq] using h

theorem dval_lt_10 {c : Char} (h : isDig c = true) : dval c < 10 := by
  have := isDig_bounds h
  unfold dval
  omega

theorem dchar_dval {c : Char} (h : isDig c = true) : dchar (dval c) = c := by
  have hb := isDig_bounds h
  apply char_toNat_inj
  rw [toNat_dchar (dval c) (dval_lt_10 h)]
  unfold dval
  omega

theorem padZ_length (w : Nat) : ∀ n, (padZ w n).length = w := by
  induction w with
  | zero => intro n; rfl
  | succ w ih => intro n; simp [padZ, ih]

theorem padZ_digits (w : Nat) : ∀ n, ∀ c ∈ padZ w n, isDig c = true := by
  induction w with
  | zero => intro n c hc; cases hc
  | succ w ih =>
    intro n c hc
    rcases List.mem_cons.mp hc with h | h
    · rw [h]
      exact isDig_dchar _
    · exact ih _ c h

theorem padZ_foldl (w : Nat) :
    ∀ (n acc : Nat), n < 10 ^ w →
      (padZ w n).foldl (fun a c => 10 * a + dval c) acc = acc * 10 ^ w + n := by
  induction w with
  | zero =>
    intro n acc h
    simp only [pow_zero] at h
    show acc = acc * 10 ^ 0 + n
    simp only [pow_zero]
    omega
  | succ w ih =>
    intro n acc h
    have hq : n / 10 ^ w < 10 := by
      apply Nat.div_lt_of_lt_mul
      rw [← pow_succ]
      exact h
    have hr : n % 10 ^ w < 10 ^ w := Nat.mod_lt n (Nat.pos_pow_of_pos w (by norm_num))
    show List.foldl (fun a c => 10 * a + dval c) acc
      (dchar (n / 10 ^ w) :: padZ w (n % 10 ^ w)) = acc * 10 ^ (w + 1) + n
    rw [List.foldl_cons, dval_dchar _ hq, ih (n % 10 ^ w) _ hr]
    have hm := Nat.div_add_mod n (10 ^ w)
    have hp : (10 : Nat) ^ (w + 1) = 10 ^ w * 10 := by ring
    rw [hp]
    nlinarith [hm]

theorem takeDigs_all_digits :
    ∀ (ds : List Char) (acc cnt : Nat) (rest : List Char),
      (∀ c ∈ ds, isDig c = true) →
      takeDigs ds.length acc cnt (ds ++ rest)
        = (ds.foldl (fun a c => 10 * a + dval c) acc, cnt + ds.length, rest) := by
  intro ds
  induction ds with
  | nil => intro acc cnt rest _; rfl
  | cons c cs ih =>
    intro acc cnt rest hd
    show takeDigs (cs.length + 1) acc cnt (c :: (cs ++ rest)) = _
    unfold takeDigs
    rw [if_pos (hd c (by simp))]
    rw [ih (10 * acc + dval c) (cnt + 1) rest (fun x hx => hd x (by simp [hx]))]
    simp only [List.foldl_cons, List.length_cons]
    congr 2
    omega
theorem parseFix_pad (w n : Nat) (rest : List Char) (hn : n < 10 ^ w) :
    parseFix w (padZ w n ++ rest) = some (n, rest) := by
  have ht := takeDigs_all_digits (padZ w n) 0 0 rest (padZ_digits w n)
  rw [padZ_length] at ht
  unfold parseFix
  rw [ht]
  dsimp only
  rw [if_pos (Nat.zero_add w), padZ_foldl w n 0 hn]
  simp

theorem parseFlex2_pad (n : Nat) (rest : List Char) (hn : n < 100) :
    parseFlex2 (padZ 2 n ++ rest) = some (n, rest) := by
  have hn2 : n < 10 ^ 2 := by omega
  have ht := takeDigs_all_digits (padZ 2 n) 0 0 rest (padZ_digits 2 n)
  rw [padZ_length] at ht
  unfold parseFlex2
  rw [ht]
  dsimp only
  rw [if_neg (by omega), padZ_foldl 2 n 0 hn2]
  simp

theorem expectC_cons (c : Char) (rest : List Char) :
    expectC c (c :: rest) = some rest := by
  simp [expectC]

theorem validDT_bounds {dt : PyDateTime} (h : validDT dt = true) :
    dt.year < 10000 ∧ dt.month < 100 ∧ dt.day < 100 ∧ dt.hour < 100 ∧
      dt.minute < 100 ∧ dt.second < 100 := by
  simp only [validDT, Bool.and_eq_true, decide_eq_true_eq] at h
  have hdm : daysInMonth dt.year dt.month ≤ 31 := by
    unfold daysInMonth
    split
    · split <;> omega
    · split <;> omega
  omega

theorem validDate_bounds {d : PyDate} (h : validDate d = true) :
    d.year < 10000 ∧ d.month < 100 ∧ d.day < 100 := by
  simp only [validDate, Bool.and_eq_true, decide_eq_true_eq] at h
  have hdm : daysInMonth d.year d.month ≤ 31 := by
    unfold daysInMonth
    split
    · split <;> omega
    · split <;> omega
  omega

theorem padZ_two (n : Nat) : padZ 2 n = [dchar (n / 10), dchar (n % 10)] := by
  simp only [padZ]
  norm_num

theorem padZ_four (n : Nat) :
    padZ 4 n = [dchar (n / 1000), dchar (n % 1000 / 100),
      dchar (n % 1000 % 100 / 10), dchar (n % 1000 % 100 % 10)] := by
  simp only [padZ]
  norm_num [Nat.mod_mod_of_dvd]

theorem decCharsAux_four (f n : Nat) (h1 : 1000 ≤ n) (h2 : n < 10000) :
    decCharsAux (f + 4) n =
      [dchar (n / 10 / 10 / 10), dchar (n / 10 / 10 % 10),
       dchar (n / 10 % 10), dchar (n % 10)] := by
  have e1 : ¬(n < 10) := by omega
  have e2 : ¬(n / 10 < 10) := by omega
  have e3 : ¬(n / 10 / 10 < 10) := by omega
  have e4 : n / 10 / 10 / 10 < 10 := by omega
  simp only [decCharsAux]
  rw [if_neg e1, if_neg e2, if_neg e3, if_pos e4]
  simp

theorem decChars_year (n : Nat) (h1 : 1000 ≤ n) (h2 : n < 10000) :
    decChars n = padZ 4 n := by
  unfold decChars
  have hf : n + 1 = (n - 3) + 4 := by omega
  rw [hf, decCharsAux_four (n - 3) n h1 h2, padZ_four]
  have q1 : n / 10 / 10 / 10 = n / 1000 := by omega
  have q2 : n / 10 / 10 % 10 = n % 1000 / 100 := by omega
  have q3 : n / 10 % 10 = n % 1000 % 100 / 10 := by omega
  have q4 : n % 10 = n % 1000 % 100 % 10 := by omega
  rw [q1, q2, q3, q4]

theorem parse_encode_datetime (dt : PyDateTime) (h : validDT dt = true)
    (hyr : 1000 ≤ dt.year) :
    parse_bugzilla_datetime (encode_bugzilla_datetime dt) = some dt := by
  obtain ⟨y, mo, dy, hr, mi, se⟩ := dt
  obtain ⟨hy, hmo, hd, hh, hmi, hs⟩ := validDT_bounds h
  have hy1000 : 1000 ≤ y := hyr
  have hylt : y < 10000 := hy
  show parseDTChars (decChars y ++ '-' :: padZ 2 mo ++ '-' :: padZ 2 dy ++
    'T' :: padZ 2 hr ++ ':' :: padZ 2 mi ++ ':' :: padZ 2 se ++ ['Z']) = _
  rw [decChars_year y hy1000 hylt]
  have hy4 : y < 10 ^ 4 := by omega
  simp only [List.append_assoc, List.cons_append]
  unfold parseDTChars
  rw [parseFix_pad 4 y _ hy4]
  simp only [Option.bind_eq_bind, Option.some_bind]
  rw [expectC_cons]
  simp only [Option.some_bind]
  rw [parseFlex2_pad mo _ hmo]
  simp only [Option.some_bind]
  rw [expectC_cons]
  simp only [Option.some_bind]
  rw [parseFlex2_pad dy _ hd]
  simp only [Option.some_bind]
  rw [expectC_cons]
  simp only [Option.some_bind]
  rw [parseFlex2_pad hr _ hh]
  simp only [Option.some_bind]
  rw [expectC_cons]
  simp only [Option.some_bind]
  rw [parseFlex2_pad mi _ hmi]
  simp only [Option.some_bind]
  rw [expectC_cons]
  simp only [Option.some_bind]
  rw [parseFlex2_pad se _ hs]
  simp only [Option.some_bind]
  rw [expectC_cons]
  simp only [Option.some_bind]
  simp only [if_true]
  rw [if_pos h]

theorem parse_encode_date (d : PyDate) (h : validDate d = true)
    (hyr : 1000 ≤ d.year) :
    parse_bugzilla_date (encode_bugzilla_date d) = some d := by
  obtain ⟨y, mo, dy⟩ := d
  obtain ⟨hy, hmo, hd⟩ := validDate_bounds h
  have hy1000 : 1000 ≤ y := hyr
  have hylt : y < 10000 := hy
  show parseDateChars (decChars y ++ '-' :: padZ 2 mo ++ '-' :: padZ 2 dy) = _
  rw [decChars_year y hy1000 hylt]
  have hy4 : y < 10 ^ 4 := by omega
  simp only [List.append_assoc, List.cons_append]
  unfold parseDateChars
  rw [parseFix_pad 4 y _ hy4]
  simp only [Option.bind_eq_bind, Option.some_bind]
  rw [expectC_cons]
  simp only [Option.some_bind]
  rw [parseFlex2_pad mo _ hmo]
  simp only [Option.some_bind]
  rw [expectC_cons]
  simp only [Option.some_bind]
  rw [show padZ 2 dy = padZ 2 dy ++ ([] : List Char) from (List.append_nil _).symm]
  rw [parseFlex2_pad dy _ hd]
  simp only [Option.some_bind, if_true]
  rw [if_pos h]

set_option maxHeartbeats 1000000 in
theorem encode_parse_datetime (s : String) (dt : PyDateTime)
    (hf : isFixedDT s = true) (hp : parse_bugzilla_datetime s = some dt)
    (hyr : 1000 ≤ dt.year) :
    encode_bugzilla_datetime dt = s := by
  obtain ⟨sd⟩ := s
  unfold isFixedDT at hf
  dsimp only at hf
  split at hf
  case h_2 => exact absurd hf (by simp)
  case h_1 y1 y2 y3 y4 a1 m1 m2 a2 d1 d2 a3 h1 h2 a4 i1 i2 a5 e1 e2 a6 =>
  simp only [Bool.and_eq_true, decide_eq_true_eq] at hf
  obtain ⟨⟨⟨⟨⟨⟨⟨⟨⟨⟨⟨⟨⟨⟨⟨⟨⟨⟨⟨hy1, hy2⟩, hy3⟩, hy4⟩, ha1⟩, hm1⟩, hm2⟩, ha2⟩,
    hd1⟩, hd2⟩, ha3⟩, hh1⟩, hh2⟩, ha4⟩, hi1⟩, hi2⟩, ha5⟩, he1⟩, he2⟩, ha6⟩ := hf
  subst ha1 ha2 ha3 ha4 ha5 ha6
  unfold parse_bugzilla_datetime at hp
  dsimp only at hp
  simp [parseDTChars, parseFix, parseFlex2, takeDigs, expectC,
    hy1, hy2, hy3, hy4, hm1, hm2, hd1, hd2, hh1, hh2, hi1, hi2, he1, he2] at hp
  obtain ⟨hv, hdt⟩ := hp
  subst hdt
  have b1 := dval_lt_10 hy1
  have b2 := dval_lt_10 hy2
  have b3 := dval_lt_10 hy3
  have b4 := dval_lt_10 hy4
  have b5 := dval_lt_10 hm1
  have b6 := dval_lt_10 hm2
  have b7 := dval_lt_10 hd1
  have b8 := dval_lt_10 hd2
  have b9 := dval_lt_10 hh1
  have b10 := dval_lt_10 hh2
  have b11 := dval_lt_10 hi1
  have b12 := dval_lt_10 hi2
  have b13 := dval_lt_10 he1
  have b14 := dval_lt_10 he2
  have hY : 1000 ≤ 10 * (10 * (10 * dval y1 + dval y2) + dval y3) + dval y4 := hyr
  have hYlt : 10 * (10 * (10 * dval y1 + dval y2) + dval y3) + dval y4 < 10000 := by
    omega
  have q1 : (10 * (10 * (10 * dval y1 + dval y2) + dval y3) + dval y4) / 1000 = dval y1 := by omega
  have q2 : (10 * (10 * (10 * dval y1 + dval y2) + dval y3) + dval y4) % 1000 / 100 = dval y2 := by omega
  have q3 : (10 * (10 * (10 * dval y1 + dval y2) + dval y3) + dval y4) % 1000 % 100 / 10 = dval y3 := by omega
  have q4 : (10 * (10 * (10 * dval y1 + dval y2) + dval y3) + dval y4) % 1000 % 100 % 10 = dval y4 := by omega
  have qm1 : (10 * dval m1 + dval m2) / 10 = dval m1 := by omega
  have qm2 : (10 * dval m1 + dval m2) % 10 = dval m2 := by omega
  have qd1 : (10 * dval d1 + dval d2) / 10 = dval d1 := by omega
  have qd2 : (10 * dval d1 + dval d2) % 10 = dval d2 := by omega
  have qh1 : (10 * dval h1 + dval h2) / 10 = dval h1 := by omega
  have qh2 : (10 * dval h1 + dval h2) % 10 = dval h2 := by omega
  have qi1 : (10 * dval i1 + dval i2) / 10 = dval i1 := by omega
  have qi2 : (10 * dval i1 + dval i2) % 10 = dval i2 := by omega
  have qe1 : (10 * dval e1 + dval e2) / 10 = dval e1 := by omega
  have qe2 : (10 * dval e1 + dval e2) % 10 = dval e2 := by omega
  unfold encode_bugzilla_datetime encodeDTChars
  dsimp only
  congr 1
  rw [decChars_year _ hY hYlt]
  rw [padZ_four, padZ_two, padZ_two, padZ_two, padZ_two, padZ_two]
  simp only [List.cons_append, List.append_assoc, List.nil_append]
  rw [q1, q2, q3, q4, qm1, qm2, qd1, qd2, qh1, qh2, qi1, qi2, qe1, qe2,
    dchar_dval hy1, dchar_dval hy2, dchar_dval hy3, dchar_dval hy4,
    dchar_dval hm1, dchar_dval hm2, dchar_dval hd1, dchar_dval hd2,
    dchar_dval hh1, dchar_dval hh2, dchar_dval hi1, dchar_dval hi2,
    dchar_dval he1, dchar_dval he2]

set_option maxHeartbeats 1000000 in
theorem encode_parse_date (s : String) (d : PyDate)
    (hf : isFixedDate s = true) (hp : parse_bugzilla_date s = some d)
    (hyr : 1000 ≤ d.year) :
    encode_bugzilla_date d = s := by
  obtain ⟨sd⟩ := s
  unfold isFixedDate at hf
  dsimp only at hf
  split at hf
  case h_2 => exact absurd hf (by simp)
  case h_1 y1 y2 y3 y4 a1 m1 m2 a2 d1 d2 =>
  simp only [Bool.and_eq_true, decide_eq_true_eq] at hf
  obtain ⟨⟨⟨⟨⟨⟨⟨⟨⟨hy1, hy2⟩, hy3⟩, hy4⟩, ha1⟩, hm1⟩, hm2⟩, ha2⟩, hd1⟩, hd2⟩ := hf
  subst ha1 ha2
  unfold parse_bugzilla_date at hp
  dsimp only at hp
  simp [parseDateChars, parseFix, parseFlex2, takeDigs, expectC,
    hy1, hy2, hy3, hy4, hm1, hm2, hd1, hd2] at hp
  obtain ⟨hv, hd'⟩ := hp
  subst hd'
  have b1 := dval_lt_10 hy1
  have b2 := dval_lt_10 hy2
  have b3 := dval_lt_10 hy3
  have b4 := dval_lt_10 hy4
  have b5 := dval_lt_10 hm1
  have b6 := dval_lt_10 hm2
  have b7 := dval_lt_10 hd1
  have b8 := dval_lt_10 hd2
  have hY : 1000 ≤ 10 * (10 * (10 * dval y1 + dval y2) + dval y3) + dval y4 := hyr
  have hYlt : 10 * (10 * (10 * dval y1 + dval y2) + dval y3) + dval y4 < 10000 := by
    omega
  have q1 : (10 * (10 * (10 * dval y1 + dval y2) + dval y3) + dval y4) / 1000 = dval y1 := by omega
  have q2 : (10 * (10 * (10 * dval y1 + dval y2) + dval y3) + dval y4) % 1000 / 100 = dval y2 := by omega
  have q3 : (10 * (10 * (10 * dval y1 + dval y2) + dval y3) + dval y4) % 1000 % 100 / 10 = dval y3 := by omega
  have q4 : (10 * (10 * (10 * dval y1 + dval y2) + dval y3) + dval y4) % 1000 % 100 % 10 = dval y4 := by omega
  have qm1 : (10 * dval m1 + dval m2) / 10 = dval m1 := by omega
  have qm2 : (10 * dval m1 + dval m2) % 10 = dval m2 := by omega
  have qd1 : (10 * dval d1 + dval d2) / 10 = dval d1 := by omega
  have qd2 : (10 * dval d1 + dval d2) % 10 = dval d2 := by omega
  unfold encode_bugzilla_date encodeDateChars
  dsimp only
  congr 1
  rw [decChars_year _ hY hYlt]
  rw [padZ_four, padZ_two, padZ_two]
  simp only [List.cons_append, List.append_assoc, List.nil_append]
  rw [q1, q2, q3, q4, qm1, qm2, qd1, qd2,
    dchar_dval hy1, dchar_dval hy2, dchar_dval hy3, dchar_dval hy4,
    dchar_dval hm1, dchar_dval hm2, dchar_dval hd1, dchar_dval hd2]

/-- Claim C5 is false as stated on years below 1000: `strftime("%Y")` does
not zero-pad them, so the constructor-valid datetime `(5, 1, 2, 3, 4, 5)`
encodes to `5-01-02T03:04:05Z`, which `strptime`'s exactly-four-digit `%Y`
pattern refuses to parse; conversely the fixed-shape wire string
`0005-01-02T03:04:05Z` parses, but re-encoding the parsed value yields the
shorter string, not the original.  The same happens for dates. -/
theorem c5_codec_round_trip_counterexample :
    validDT ⟨5, 1, 2, 3, 4, 5⟩ = true ∧
    encode_bugzilla_datetime ⟨5, 1, 2, 3, 4, 5⟩ = "5-01-02T03:04:05Z" ∧
    parse_bugzilla_datetime (encode_bugzilla_datetime ⟨5, 1, 2, 3, 4, 5⟩) = none ∧
    isFixedDT "0005-01-02T03:04:05Z" = true ∧
    parse_bugzilla_datetime "0005-01-02T03:04:05Z" = some ⟨5, 1, 2, 3, 4, 5⟩ ∧
    encode_bugzilla_datetime ⟨5, 1, 2, 3, 4, 5⟩ ≠ "0005-01-02T03:04:05Z" ∧
    validDate ⟨5, 1, 2⟩ = true ∧
    encode_bugzilla_date ⟨5, 1, 2⟩ = "5-01-02" ∧
    parse_bugzilla_date (encode_bugzilla_date ⟨5, 1, 2⟩) = none :=
  ⟨by decide, rfl, rfl, by decide, rfl, by decide, by decide, rfl, rfl⟩

/-- Claim C5 (amended): the codec round trips hold on four-digit years.
(a) For every datetime accepted by `datetime`'s range checks whose year is
at least 1000, parsing the `strftime("%Y-%m-%dT%H:%M:%SZ")` encoding gives
the value back; (b) for every string in the fixed `YYYY-MM-DDTHH:MM:SSZ`
shape that parses to a year of at least 1000 (first year digit nonzero),
re-encoding the parsed timestamp reproduces the identical string; (c), (d)
the same for dates in `YYYY-MM-DD` shape; (e) encoding a `None` timestamp
or date yields `None` and never raises.  Below year 1000 the round trips
fail, as the counterexample shows. -/
theorem c5_codec_round_trip_amended :
    (∀ dt : PyDateTime, validDT dt = true → 1000 ≤ dt.year →
      parse_bugzilla_datetime (encode_bugzilla_datetime dt) = some dt) ∧
    (∀ (s : String) (dt : PyDateTime), isFixedDT s = true →
      parse_bugzilla_datetime s = some dt → 1000 ≤ dt.year →
      encode_bugzilla_datetime dt = s) ∧
    (∀ d : PyDate, validDate d = true → 1000 ≤ d.year →
      parse_bugzilla_date (encode_bugzilla_date d) = some d) ∧
    (∀ (s : String) (d : PyDate), isFixedDate s = true →
      parse_bugzilla_date s = some d → 1000 ≤ d.year →
      encode_bugzilla_date d = s) ∧
    encode_bugzilla_datetimeO none = none ∧
    encode_bugzilla_dateO none = none :=
  ⟨parse_encode_datetime, fun s dt hf hp hy => encode_parse_datetime s dt hf hp hy,
   parse_encode_date, fun s d hf hp hy => encode_parse_date s d hf hp hy, rfl, rfl⟩

/-- Concrete instance of the amended C5: the sample timestamp
`2020-01-02T03:04:05Z` and date `2021-12-31` round-trip in both
directions. -/
theorem c5_codec_round_trip_amended_witness :
    (validDT ⟨2020, 1, 2, 3, 4, 5⟩ = true ∧
     parse_bugzilla_datetime (encode_bugzilla_datetime ⟨2020, 1, 2, 3, 4, 5⟩) =
       some ⟨2020, 1, 2, 3, 4, 5⟩) ∧
    (isFixedDT "2020-01-02T03:04:05Z" = true ∧
     encode_bugzilla_datetime ⟨2020, 1, 2, 3, 4, 5⟩ = "2020-01-02T03:04:05Z") ∧
    (validDate ⟨2021, 12, 31⟩ = true ∧
     parse_bugzilla_date (encode_bugzilla_date ⟨2021, 12, 31⟩) =
       some ⟨2021, 12, 31⟩) ∧
    (isFixedDate "2021-12-31" = true ∧
     encode_bugzilla_date ⟨2021, 12, 31⟩ = "2021-12-31") :=
  ⟨⟨by decide, c5_codec_round_trip_amended.1 ⟨2020, 1, 2, 3, 4, 5⟩ (by decide) (by decide)⟩,
   ⟨by decide, c5_codec_round_trip_amended.2.1 "2020-01-02T03:04:05Z"
      ⟨2020, 1, 2, 3, 4, 5⟩ (by decide) (by decide) (by decide)⟩,
   ⟨by decide, c5_codec_round_trip_amended.2.2.1 ⟨2021, 12, 31⟩ (by decide) (by decide)⟩,
   ⟨by decide, c5_codec_round_trip_amended.2.2.2.1 "2021-12-31"
      ⟨2021, 12, 31⟩ (by decide) (by decide) (by decide)⟩⟩
